import Mathlib

/-!
Shallow embedding of the persistence layer of the mac-todo-app repository:
the File Backend (`src/storage/fileStorage.js`), the Relational Backend
(`src/storage/sqliteFileStorage.js`) and the record shapes they share.

JavaScript strings are modelled as `List Char` (the character data of the
string).  `localeCompare`-based ordering on ISO-8601 timestamp strings is
modelled by code-point lexicographic order, which coincides with it on the
character set those timestamps use.  Nondeterministic inputs of the code
(`crypto.randomUUID()`, `new Date().toISOString()`, success or failure of
the physical file write) are passed in as explicit arguments, so that every
operation is a pure function from state and inputs to result and state.
-/

namespace TodoApp

/-- A JavaScript string, as its list of characters. -/
abbrev Str := List Char

/-- Code-point lexicographic order on strings; this is what
`a.createdAt.localeCompare(b.createdAt)` computes on ISO timestamps. -/
def strLe : Str → Str → Bool
  | [], _ => true
  | _ :: _, [] => false
  | a :: as, b :: bs =>
    if a.toNat < b.toNat then true
    else if b.toNat < a.toNat then false
    else strLe as bs

/-- JS `s.trim() === ""` for a string: true exactly when every
character is whitespace (trimming both ends leaves nothing). -/
def strBlank (s : Str) : Bool := s.all Char.isWhitespace

/-- The canonical Todo record shape both backends return. -/
structure Todo where
  id : Str
  title : Str
  description : Str
  done : Bool
  createdAt : Str
  updatedAt : Str
deriving DecidableEq

/-- Caller-supplied data for `addTodo(todoData)`.  A field is `none` when it
is absent or fails the `typeof ... === "string"` check in the source; `done`
is `!!todoData.done`. -/
structure TodoData where
  title : Option Str
  description : Option Str
  done : Bool
deriving DecidableEq

/-- A patch for `updateTodo(id, patch)`.  `title = some t` models a patch
whose `title` is a string (the `typeof patch.title === "string"` check);
`description = some d` models `patch.description !== undefined`, with `d`
the result of `String(patch.description)`; `done = some b` models
`typeof patch.done === "boolean"`. -/
structure Patch where
  title : Option Str
  description : Option Str
  done : Option Bool
deriving DecidableEq

/-- The errors this layer can raise.
`validation` is `new Error("title is required and must be a non-empty string")`;
`notInitialized` is `new Error("SqliteFileStorage not initialized. Call init() first.")`;
`medium` is any I/O failure surfaced from the file system;
`constraint` is the relational engine rejecting an INSERT that violates the
`id TEXT PRIMARY KEY` constraint. -/
inductive StorageError
  | validation
  | notInitialized
  | medium
  | constraint
deriving DecidableEq

/-- The shared title check of both `addTodo` implementations:
`!todoData || typeof todoData.title !== "string" || todoData.title.trim() === ""`. -/
def titleInvalid (t : Option Str) : Bool :=
  match t with
  | none => true
  | some s => strBlank s

/-- The todo object both `addTodo` implementations construct: generated id,
the given title, description defaulted to `""` when absent or not a string,
`done` coerced by `!!`, and `createdAt = updatedAt = now`. -/
def mkTodo (d : TodoData) (newId now : Str) : Todo :=
  { id := newId
    title := d.title.getD []
    description := d.description.getD []
    done := d.done
    createdAt := now
    updatedAt := now }

/-- Ordering used by both backends when listing: ascending `createdAt`. -/
def todoLe (a b : Todo) : Prop := strLe a.createdAt b.createdAt = true

instance : DecidableRel todoLe := fun a b => Bool.decEq (strLe a.createdAt b.createdAt) true

/-- Models `Array.prototype.sort` with comparator `a.createdAt.localeCompare(b.createdAt)`:
a stable sort by ascending `createdAt`. -/
def sortByCreated (l : List Todo) : List Todo := l.insertionSort todoLe

/-! ## File Backend (`src/storage/fileStorage.js`)

The in-memory `Map` keyed by id is modelled as a list of todos in insertion
order with pairwise-distinct ids (a JS `Map` keeps insertion order; `set` on
an existing key replaces the value in place).  The disk is the parsed
content of the target file: `none` for a missing, empty or invalid file,
`some arr` for a valid array of records; `tmp` records whether a temporary
sibling file is currently present. -/

/-- Durability mode; the constructor throws on any other string. -/
inductive Mode
  | onClose
  | immediate
deriving DecidableEq

/-- Outcome of one physical write attempt (`fs.writeFile` + `fs.rename`),
with `rmOk` the outcome of the best-effort `fs.rm` cleanup on failure. -/
inductive WOutcome
  | success
  | writeFail (rmOk : Bool)
  | renameFail (rmOk : Bool)
deriving DecidableEq

structure Disk where
  target : Option (List Todo)
  tmp : Bool
deriving DecidableEq

structure FileMem where
  inited : Bool
  dirty : Bool
  map : List Todo
  mode : Mode
deriving DecidableEq

structure FileSt where
  mem : FileMem
  disk : Disk
deriving DecidableEq

/-- Models `this._map.has(id)`. -/
def mapHas (m : List Todo) (i : Str) : Bool := m.any (fun t => t.id == i)

/-- Models `this._map.get(id)`. -/
def mapGet (m : List Todo) (i : Str) : Option Todo := m.find? (fun t => t.id == i)

/-- Models `this._map.set(t.id, t)`: replace in place when the key exists, append
otherwise. -/
def mapSet (m : List Todo) (t : Todo) : List Todo :=
  if mapHas m t.id then m.map (fun x => if x.id == t.id then t else x) else m ++ [t]

/-- Models `this._map.delete(id)`. -/
def mapDelete (m : List Todo) (i : Str) : List Todo := m.filter (fun t => !(t.id == i))

namespace FileStorage

/-- The state of a freshly constructed `FileStorage` instance. -/
def newMem (mode : Mode) : FileMem := { inited := false, dirty := false, map := [], mode := mode }

/-- Models `_ensureInit()`: lazily mark the instance initialized, keeping whatever
map it already holds, and mark it dirty. -/
def ensureInit (m : FileMem) : FileMem :=
  if m.inited then m else { m with inited := true, dirty := true }

/-- Models `init()`: no-op when already initialized; otherwise load the file.
Missing, empty or invalid content gives an empty map marked dirty; a valid
array is loaded into the map keyed by id (entries lacking a string id are
dropped at parse time, so the disk model only holds valid records) and the
state is clean. -/
def init (s : FileSt) : Except StorageError Unit × FileSt :=
  if s.mem.inited then (.ok (), s)
  else
    match s.disk.target with
    | none =>
      (.ok (), { s with mem := { s.mem with inited := true, map := [], dirty := true } })
    | some arr =>
      let loaded := arr.foldl (fun acc t => mapSet acc t) []
      (.ok (), { s with mem := { s.mem with inited := true, map := loaded, dirty := false } })

/-- Models `_writeToDisk()`: serialize the full set sorted by `createdAt` ascending
to a temporary file, rename it over the target, clear the dirty flag only
after the rename; on failure remove the temporary file best-effort, leave
the target and the dirty flag untouched, and propagate the error. -/
def writeToDisk (s : FileSt) (w : WOutcome) : Except StorageError Unit × FileSt :=
  let arr := sortByCreated s.mem.map
  match w with
  | .success =>
    (.ok (), { mem := { s.mem with dirty := false },
               disk := { target := some arr, tmp := false } })
  | .writeFail rmOk =>
    (.error .medium, { s with disk := { s.disk with tmp := !rmOk } })
  | .renameFail rmOk =>
    (.error .medium, { s with disk := { s.disk with tmp := !rmOk } })

/-- Models `close()`: no-op when not initialized; in `onClose` mode flush when
dirty (an error from the write propagates and leaves the instance
initialized); finally mark the instance not initialized. -/
def close (s : FileSt) (w : WOutcome) : Except StorageError Unit × FileSt :=
  if s.mem.inited = false then (.ok (), s)
  else if s.mem.mode = Mode.onClose ∧ s.mem.dirty = true then
    match writeToDisk s w with
    | (.ok _, s1) => (.ok (), { s1 with mem := { s1.mem with inited := false } })
    | (.error e, s1) => (.error e, s1)
  else (.ok (), { s with mem := { s.mem with inited := false } })

/-- Models `addTodo(todoData)` with the generated id, the current timestamp and the
physical-write outcome passed explicitly. -/
def addTodo (s : FileSt) (d : TodoData) (newId now : Str) (w : WOutcome) :
    Except StorageError Todo × FileSt :=
  let s1 : FileSt := { s with mem := ensureInit s.mem }
  if titleInvalid d.title then (.error .validation, s1)
  else
    let todo := mkTodo d newId now
    let s2 : FileSt :=
      { s1 with mem := { s1.mem with map := mapSet s1.mem.map todo, dirty := true } }
    if s2.mem.mode = Mode.immediate then
      match writeToDisk s2 w with
      | (.ok _, s3) => (.ok todo, s3)
      | (.error e, s3) => (.error e, s3)
    else (.ok todo, s2)

/-- Models `getAllTodos({limit, offset})`; `items.slice(offset, offset + limit)` on
natural numbers is drop-then-take. -/
def getAllTodos (s : FileSt) (limit : Option Nat) (offset : Nat) :
    Except StorageError (List Todo) × FileSt :=
  let s1 : FileSt := { s with mem := ensureInit s.mem }
  let items := sortByCreated s1.mem.map
  match limit with
  | none => (.ok items, s1)
  | some l => (.ok ((items.drop offset).take l), s1)

/-- Models `getTodoById(id)`. -/
def getTodoById (s : FileSt) (i : Str) : Except StorageError (Option Todo) × FileSt :=
  let s1 : FileSt := { s with mem := ensureInit s.mem }
  (.ok (mapGet s1.mem.map i), s1)

/-- Models `updateTodo(id, patch)`: merge the patch over the existing record,
refresh `updatedAt`, store in place, and in immediate mode write. -/
def updateTodo (s : FileSt) (i : Str) (p : Patch) (now : Str) (w : WOutcome) :
    Except StorageError (Option Todo) × FileSt :=
  let s1 : FileSt := { s with mem := ensureInit s.mem }
  match mapGet s1.mem.map i with
  | none => (.ok none, s1)
  | some existing =>
    let updated : Todo :=
      { existing with
        title := p.title.getD existing.title
        description := p.description.getD existing.description
        done := p.done.getD existing.done
        updatedAt := now }
    let s2 : FileSt :=
      { s1 with mem := { s1.mem with map := mapSet s1.mem.map updated, dirty := true } }
    if s2.mem.mode = Mode.immediate then
      match writeToDisk s2 w with
      | (.ok _, s3) => (.ok (some updated), s3)
      | (.error e, s3) => (.error e, s3)
    else (.ok (some updated), s2)

/-- Models `deleteTodo(id)`. -/
def deleteTodo (s : FileSt) (i : Str) (w : WOutcome) :
    Except StorageError Bool × FileSt :=
  let s1 : FileSt := { s with mem := ensureInit s.mem }
  if mapHas s1.mem.map i = false then (.ok false, s1)
  else
    let s2 : FileSt :=
      { s1 with mem := { s1.mem with map := mapDelete s1.mem.map i, dirty := true } }
    if s2.mem.mode = Mode.immediate then
      match writeToDisk s2 w with
      | (.ok _, s3) => (.ok true, s3)
      | (.error e, s3) => (.error e, s3)
    else (.ok true, s2)

end FileStorage

/-! ## Relational Backend (`src/storage/sqliteFileStorage.js`)

The `todos` table is modelled as a list of rows in rowid (insertion) order;
the list lives in the database file, so it survives `close()`.  `done` is
stored as the integer the code binds (`todo.done ? 1 : 0`), matching the
`done INTEGER ... CHECK (done IN (0,1))` column.  `SELECT ... ORDER BY
created_at ASC` is modelled as a stable sort of the rows; `LIMIT ? OFFSET ?`
as drop-then-take.  The engine itself is assumed healthy: the only engine
error modelled is the primary-key violation an INSERT of a duplicate id
would raise. -/

structure Row where
  id : Str
  title : Str
  description : Str
  done : Nat
  created_at : Str
  updated_at : Str
deriving DecidableEq

structure SqlSt where
  inited : Bool
  rows : List Row
deriving DecidableEq

def rowLe (a b : Row) : Prop := strLe a.created_at b.created_at = true

instance : DecidableRel rowLe := fun a b => Bool.decEq (strLe a.created_at b.created_at) true

def sortRows (l : List Row) : List Row := l.insertionSort rowLe

/-- Models `_rowToTodo(row)`: `row.description || ""` is the identity on the strings
this table stores (only `""` is falsy), and `row.done === 1 || row.done === true`
reads the 0/1 column back as a boolean. -/
def rowToTodo (r : Row) : Todo :=
  { id := r.id
    title := r.title
    description := r.description
    done := r.done == 1
    createdAt := r.created_at
    updatedAt := r.updated_at }

namespace SqliteFileStorage

/-- A freshly constructed instance over a database file holding `rows`
(`[]` for a fresh path). -/
def newSt (rows : List Row) : SqlSt := { inited := false, rows := rows }

/-- Models `init()`: no-op when initialized; otherwise open the database and apply
the idempotent bootstrap schema, leaving existing rows in place. -/
def init (s : SqlSt) : Except StorageError Unit × SqlSt :=
  if s.inited then (.ok (), s) else (.ok (), { s with inited := true })

/-- Models `close()`: release the connection; safe when never opened.  The rows
live in the database file and persist. -/
def close (s : SqlSt) : Except StorageError Unit × SqlSt :=
  (.ok (), { s with inited := false })

/-- Models `_ensureInit()` throwing when not initialized; then `addTodo` validates,
builds the todo and issues a parameterized INSERT (which the engine rejects
if the generated id already exists, `id` being the primary key). -/
def addTodo (s : SqlSt) (d : TodoData) (newId now : Str) :
    Except StorageError Todo × SqlSt :=
  if s.inited = false then (.error .notInitialized, s)
  else if titleInvalid d.title then (.error .validation, s)
  else
    let todo := mkTodo d newId now
    if s.rows.any (fun r => r.id == todo.id) then (.error .constraint, s)
    else
      let row : Row :=
        { id := todo.id
          title := todo.title
          description := todo.description
          done := if todo.done then 1 else 0
          created_at := todo.createdAt
          updated_at := todo.updatedAt }
      (.ok todo, { s with rows := s.rows ++ [row] })

/-- Models `getAllTodos({limit, offset})`: SELECT ordered by `created_at` ascending,
with `LIMIT ? OFFSET ?` appended only when a limit is given, then
`rows.map(_rowToTodo)`. -/
def getAllTodos (s : SqlSt) (limit : Option Nat) (offset : Nat) :
    Except StorageError (List Todo) × SqlSt :=
  if s.inited = false then (.error .notInitialized, s)
  else
    let ordered := sortRows s.rows
    match limit with
    | none => (.ok (ordered.map rowToTodo), s)
    | some l => (.ok (((ordered.drop offset).take l).map rowToTodo), s)

/-- Models `getTodoById(id)`: SELECT by primary key. -/
def getTodoById (s : SqlSt) (i : Str) : Except StorageError (Option Todo) × SqlSt :=
  if s.inited = false then (.error .notInitialized, s)
  else (.ok ((s.rows.find? (fun r => r.id == i)).map rowToTodo), s)

/-- Models `updateTodo(id, patch)`: re-read the row, merge the patch, refresh
`updatedAt`, then UPDATE title/description/done/updated_at by primary key. -/
def updateTodo (s : SqlSt) (i : Str) (p : Patch) (now : Str) :
    Except StorageError (Option Todo) × SqlSt :=
  if s.inited = false then (.error .notInitialized, s)
  else
    match (s.rows.find? (fun r => r.id == i)).map rowToTodo with
    | none => (.ok none, s)
    | some existing =>
      let updated : Todo :=
        { existing with
          title := p.title.getD existing.title
          description := p.description.getD existing.description
          done := p.done.getD existing.done
          updatedAt := now }
      let rows2 := s.rows.map (fun r =>
        if r.id == i then
          { r with
            title := updated.title
            description := updated.description
            done := if updated.done then 1 else 0
            updated_at := updated.updatedAt }
        else r)
      (.ok (some updated), { s with rows := rows2 })

/-- Models `deleteTodo(id)`: DELETE by primary key, reporting `changes > 0`. -/
def deleteTodo (s : SqlSt) (i : Str) : Except StorageError Bool × SqlSt :=
  if s.inited = false then (.error .notInitialized, s)
  else
    let changes := (s.rows.filter (fun r => r.id == i)).length
    (.ok (decide (0 < changes)), { s with rows := s.rows.filter (fun r => !(r.id == i)) })

end SqliteFileStorage

/-! ## Traces over the shared contract

One constructor per contract operation, with the nondeterministic inputs
(generated id, timestamp) embedded, and an observation type covering every
return shape and raised error.  The trace semantics runs the physical file
writes with `WOutcome.success` (a healthy medium). -/

inductive Op
  | opInit
  | opClose
  | opAdd (d : TodoData) (newId now : Str)
  | opGetAll (limit : Option Nat) (offset : Nat)
  | opGetById (i : Str)
  | opUpdate (i : Str) (p : Patch) (now : Str)
  | opDelete (i : Str)
deriving DecidableEq

inductive Obs
  | ounit
  | otodo (t : Todo)
  | oopt (o : Option Todo)
  | olist (l : List Todo)
  | obool (b : Bool)
  | oerr (e : StorageError)
deriving DecidableEq

def obsUnit : Except StorageError Unit → Obs
  | .ok _ => .ounit
  | .error e => .oerr e

def obsTodo : Except StorageError Todo → Obs
  | .ok t => .otodo t
  | .error e => .oerr e

def obsOpt : Except StorageError (Option Todo) → Obs
  | .ok o => .oopt o
  | .error e => .oerr e

def obsList : Except StorageError (List Todo) → Obs
  | .ok l => .olist l
  | .error e => .oerr e

def obsBool : Except StorageError Bool → Obs
  | .ok b => .obool b
  | .error e => .oerr e

def stepFile (s : FileSt) : Op → Obs × FileSt
  | .opInit => let r := FileStorage.init s; (obsUnit r.1, r.2)
  | .opClose => let r := FileStorage.close s .success; (obsUnit r.1, r.2)
  | .opAdd d newId now => let r := FileStorage.addTodo s d newId now .success; (obsTodo r.1, r.2)
  | .opGetAll limit offset => let r := FileStorage.getAllTodos s limit offset; (obsList r.1, r.2)
  | .opGetById i => let r := FileStorage.getTodoById s i; (obsOpt r.1, r.2)
  | .opUpdate i p now => let r := FileStorage.updateTodo s i p now .success; (obsOpt r.1, r.2)
  | .opDelete i => let r := FileStorage.deleteTodo s i .success; (obsBool r.1, r.2)

def stepSql (s : SqlSt) : Op → Obs × SqlSt
  | .opInit => let r := SqliteFileStorage.init s; (obsUnit r.1, r.2)
  | .opClose => let r := SqliteFileStorage.close s; (obsUnit r.1, r.2)
  | .opAdd d newId now => let r := SqliteFileStorage.addTodo s d newId now; (obsTodo r.1, r.2)
  | .opGetAll limit offset => let r := SqliteFileStorage.getAllTodos s limit offset; (obsList r.1, r.2)
  | .opGetById i => let r := SqliteFileStorage.getTodoById s i; (obsOpt r.1, r.2)
  | .opUpdate i p now => let r := SqliteFileStorage.updateTodo s i p now; (obsOpt r.1, r.2)
  | .opDelete i => let r := SqliteFileStorage.deleteTodo s i; (obsBool r.1, r.2)

def runFile (s : FileSt) : List Op → List Obs
  | [] => []
  | op :: rest =>
    let r := stepFile s op
    r.1 :: runFile r.2 rest

def runSql (s : SqlSt) : List Op → List Obs
  | [] => []
  | op :: rest =>
    let r := stepSql s op
    r.1 :: runSql r.2 rest

/-- Whether one operation's generated id (if any) is fresh for the map `m`. -/
def opFresh (m : List Todo) : Op → Bool
  | .opAdd _ newId _ => !(mapHas m newId)
  | _ => true

/-- Every id the trace asks a backend to generate is fresh at the moment of
its `addTodo` call — what `crypto.randomUUID()` delivers in practice.
Evaluated along the File Backend's run. -/
def freshRun (s : FileSt) : List Op → Bool
  | [] => true
  | op :: rest => opFresh s.mem.map op && freshRun (stepFile s op).2 rest

/-- Correspondence between a File Backend state and a Relational Backend
state: both initialized, and the very same todos in the same (insertion)
order. -/
def Agree (s : FileSt) (q : SqlSt) : Prop :=
  s.mem.inited = true ∧ q.inited = true ∧ s.mem.map = q.rows.map rowToTodo

/-- The ids of the records held in a File Backend map.  A JS `Map` cannot
hold two entries with the same key, so this list is duplicate-free in every
state the code can build. -/
def idsOf (l : List Todo) : List Str := l.map (fun t => t.id)

/-- Convenience state: a File Backend instance freshly constructed against a
path with no file behind it. -/
def fileStart (mode : Mode) : FileSt :=
  { mem := FileStorage.newMem mode, disk := { target := none, tmp := false } }

/-- Convenience state: a Relational Backend instance freshly constructed
against a fresh database file. -/
def sqlStart : SqlSt := SqliteFileStorage.newSt []

/-- Run a trace for its final File Backend state. -/
def runFileSt (s : FileSt) : List Op → FileSt
  | [] => s
  | op :: rest => runFileSt (stepFile s op).2 rest

/-- Run a trace for its final Relational Backend state. -/
def runSqlSt (s : SqlSt) : List Op → SqlSt
  | [] => s
  | op :: rest => runSqlSt (stepSql s op).2 rest

/-- Every stored record's title is non-blank (not empty, not whitespace-only). -/
def titlesOk (l : List Todo) : Bool := l.all (fun t => !(strBlank t.title))

/-- Every stored row's title is non-blank. -/
def rowTitlesOk (l : List Row) : Bool := l.all (fun r => !(strBlank r.title))

/-- An update patch that supplies a title supplies a non-blank one. -/
def opPatchOk : Op → Bool
  | .opUpdate _ p _ =>
    match p.title with
    | some t => !(strBlank t)
    | none => true
  | _ => true

def patchesOk : List Op → Bool
  | [] => true
  | op :: rest => opPatchOk op && patchesOk rest

/-- The operation is one of the three mutations addTodo/updateTodo/deleteTodo. -/
def isMut : Op → Bool
  | .opAdd _ _ _ => true
  | .opUpdate _ _ _ => true
  | .opDelete _ => true
  | _ => false

def mutOnly : List Op → Bool
  | [] => true
  | op :: rest => isMut op && mutOnly rest

/-- Run a sequence of `addTodo` calls (data, generated id, timestamp), all
with successful writes, for the final state. -/
def addSeq (s : FileSt) : List (TodoData × Str × Str) → FileSt
  | [] => s
  | x :: rest => addSeq (FileStorage.addTodo s x.1 x.2.1 x.2.2 .success).2 rest

/-- Every add in the sequence has a valid title and a generated id fresh at
the moment of its call. -/
def addsOk (s : FileSt) : List (TodoData × Str × Str) → Bool
  | [] => true
  | x :: rest =>
    (!(titleInvalid x.1.title) && !(mapHas s.mem.map x.2.1))
      && addsOk (FileStorage.addTodo s x.1 x.2.1 x.2.2 .success).2 rest

/-- Invariant along a File Backend add-run with successful writes: the
instance is initialized, ids are unique, and either the target file holds
the sorted current set, or the state is dirty in `onClose` mode, or the
state is the still-unwritten empty bootstrap state. -/
def roundInv (s : FileSt) : Prop :=
  s.mem.inited = true ∧ (idsOf s.mem.map).Nodup ∧
    (s.disk.target = some (sortByCreated s.mem.map) ∨
     (s.mem.dirty = true ∧ s.mem.mode = Mode.onClose) ∨
     (s.mem.dirty = true ∧ s.mem.map = [] ∧ s.disk.target = none))

/-- Whether a write outcome is a failure. -/
def wFails : WOutcome → Bool
  | .success => false
  | .writeFail _ => true
  | .renameFail _ => true

/-- The best-effort cleanup outcome carried by a failing write. -/
def rmOf : WOutcome → Bool
  | .success => true
  | .writeFail rm => rm
  | .renameFail rm => rm

/-- The record `updateTodo` builds from the existing record and the patch. -/
def mergePatch (ex : Todo) (p : Patch) (now : Str) : Todo :=
  { ex with
    title := p.title.getD ex.title
    description := p.description.getD ex.description
    done := p.done.getD ex.done
    updatedAt := now }

/-- The row `addTodo` inserts for a freshly built todo. -/
def rowOf (t : Todo) : Row :=
  { id := t.id
    title := t.title
    description := t.description
    done := if t.done then 1 else 0
    created_at := t.createdAt
    updated_at := t.updatedAt }

/-- The row rewrite the UPDATE statement applies to a matching row. -/
def rowUpd (u : Todo) (r : Row) : Row :=
  { r with
    title := u.title
    description := u.description
    done := if u.done then 1 else 0
    updated_at := u.updatedAt }

/-! ## Helper lemmas -/

theorem strLe_total : ∀ a b : Str, strLe a b = true ∨ strLe b a = true
  | [], _ => Or.inl rfl
  | _ :: _, [] => Or.inr rfl
  | a :: as, b :: bs => by
    rcases Nat.lt_trichotomy a.toNat b.toNat with h | h | h
    · left
      simp [strLe, h]
    · have h1 : ¬a.toNat < b.toNat := by omega
      have h2 : ¬b.toNat < a.toNat := by omega
      simpa [strLe, h1, h2] using strLe_total as bs
    · right
      simp [strLe, h]

theorem strLe_trans : ∀ {a b c : Str}, strLe a b = true → strLe b c = true → strLe a c = true
  | [], _, _, _, _ => rfl
  | _ :: _, [], _, hab, _ => by simp [strLe] at hab
  | _ :: _, _ :: _, [], _, hbc => by simp [strLe] at hbc
  | a :: as, b :: bs, c :: cs, hab, hbc => by
    by_cases h1 : a.toNat < b.toNat
    · by_cases h2 : b.toNat < c.toNat
      · have : a.toNat < c.toNat := Nat.lt_trans h1 h2
        simp [strLe, this]
      · have h3 : ¬c.toNat < b.toNat := by
          intro hc
          simp [strLe, h2, hc, Nat.lt_asymm hc] at hbc
        have : a.toNat < c.toNat := by omega
        simp [strLe, this]
    · by_cases h1' : b.toNat < a.toNat
      · simp [strLe, h1, h1'] at hab
      · have hba : a.toNat = b.toNat := by omega
        by_cases h2 : b.toNat < c.toNat
        · have : a.toNat < c.toNat := by omega
          simp [strLe, this]
        · by_cases h2' : c.toNat < b.toNat
          · simp [strLe, h2, h2'] at hbc
          · have hac1 : ¬a.toNat < c.toNat := by omega
            have hac2 : ¬c.toNat < a.toNat := by omega
            simp [strLe, h1, h1'] at hab
            simp [strLe, h2, h2'] at hbc
            simpa [strLe, hac1, hac2] using strLe_trans hab hbc

instance : IsTotal Todo todoLe := ⟨fun a b => strLe_total a.createdAt b.createdAt⟩

instance : IsTrans Todo todoLe := ⟨fun _ _ _ hab hbc => strLe_trans hab hbc⟩

instance : IsTotal Row rowLe := ⟨fun a b => strLe_total a.created_at b.created_at⟩

instance : IsTrans Row rowLe := ⟨fun _ _ _ hab hbc => strLe_trans hab hbc⟩



theorem ensureInit_of_inited {m : FileMem} (h : m.inited = true) :
    FileStorage.ensureInit m = m := by
  simp [FileStorage.ensureInit, h]

theorem rowToTodo_id (r : Row) : (rowToTodo r).id = r.id := rfl

theorem sort_map_comm (l : List Row) :
    sortByCreated (l.map rowToTodo) = (sortRows l).map rowToTodo :=
  (List.map_insertionSort rowLe todoLe rowToTodo l (fun _ _ _ _ => Iff.rfl)).symm

theorem find_map_comm (l : List Row) (i : Str) :
    (l.map rowToTodo).find? (fun t => t.id == i) = (l.find? (fun r => r.id == i)).map rowToTodo := by
  rw [List.find?_map]
  rfl

theorem filter_map_comm (l : List Row) (i : Str) :
    (l.map rowToTodo).filter (fun t => !(t.id == i)) =
      (l.filter (fun r => !(r.id == i))).map rowToTodo := by
  rw [List.filter_map]
  rfl

theorem any_map_comm (l : List Row) (p : Todo → Bool) :
    (l.map rowToTodo).any p = l.any (fun r => p (rowToTodo r)) := by
  induction l with
  | nil => rfl
  | cons r rs ih => simp [ih]

theorem filterPos_eq_any (l : List Row) (p : Row → Bool) :
    decide (0 < (l.filter p).length) = l.any p := by
  induction l with
  | nil => rfl
  | cons r rs ih =>
    by_cases h : p r = true
    · simp [List.filter_cons, h]
    · simp only [List.filter_cons, Bool.not_eq_true] at *
      simp [h, ih]

theorem find_replace (t : Todo) : ∀ (m : List Todo), m.any (fun x => x.id == t.id) = true →
    (m.map (fun x => if x.id == t.id then t else x)).find? (fun x => x.id == t.id) = some t
  | [], h => by simp at h
  | a :: as, h => by
    by_cases ha : (a.id == t.id) = true
    · have hhead : (if (a.id == t.id) = true then t else a) = t := if_pos ha
      simp only [List.map_cons, hhead]
      exact List.find?_cons_of_pos _ (by simp)
    · have hhead : (if (a.id == t.id) = true then t else a) = a := if_neg ha
      simp only [List.map_cons, hhead]
      rw [List.find?_cons_of_neg _ (by simpa using ha)]
      have h' : as.any (fun x => x.id == t.id) = true := by
        simp only [List.any_cons, Bool.or_eq_true] at h
        rcases h with h | h
        · exact absurd h ha
        · exact h
      exact find_replace t as h'

theorem find_append_last (t : Todo) : ∀ (m : List Todo), m.any (fun x => x.id == t.id) = false →
    (m ++ [t]).find? (fun x => x.id == t.id) = some t
  | [], _ => by simp
  | a :: as, h => by
    simp only [List.any_cons, Bool.or_eq_false_iff] at h
    simp only [List.cons_append]
    rw [List.find?_cons_of_neg _ (by simpa using h.1)]
    exact find_append_last t as h.2

theorem mapGet_mapSet_self (m : List Todo) (t : Todo) :
    mapGet (mapSet m t) t.id = some t := by
  unfold mapSet mapGet
  by_cases h : mapHas m t.id = true
  · rw [if_pos h]
    exact find_replace t m h
  · rw [if_neg h]
    exact find_append_last t m (by simpa [mapHas] using h)

theorem mapGet_mapDelete (m : List Todo) (i : Str) :
    mapGet (mapDelete m i) i = none := by
  unfold mapGet mapDelete
  rw [List.find?_eq_none]
  intro x hx
  have := (List.mem_filter.mp hx).2
  simp at this
  simp [this]

/-! ### Evaluation lemmas for the File Backend on an initialized state -/

theorem ensureInitSt_of_inited {s : FileSt} (h : s.mem.inited = true) :
    ({ s with mem := FileStorage.ensureInit s.mem } : FileSt) = s := by
  rw [ensureInit_of_inited h]

theorem fileInit_inited (s : FileSt) (h : s.mem.inited = true) :
    FileStorage.init s = (.ok (), s) := by
  simp [FileStorage.init, h]

theorem fileAdd_invalid (s : FileSt) (d : TodoData) (newId now : Str) (w : WOutcome)
    (h : s.mem.inited = true) (hbad : titleInvalid d.title = true) :
    FileStorage.addTodo s d newId now w = (.error .validation, s) := by
  simp [FileStorage.addTodo, ensureInit_of_inited h, hbad]

theorem fileAdd_onClose (s : FileSt) (d : TodoData) (newId now : Str) (w : WOutcome)
    (h : s.mem.inited = true) (hok : titleInvalid d.title = false)
    (hm : s.mem.mode = Mode.onClose) :
    FileStorage.addTodo s d newId now w =
      (.ok (mkTodo d newId now),
        { s with mem := { s.mem with map := mapSet s.mem.map (mkTodo d newId now), dirty := true } }) := by
  simp [FileStorage.addTodo, ensureInit_of_inited h, hok, hm]

theorem fileAdd_immediate_ok (s : FileSt) (d : TodoData) (newId now : Str)
    (h : s.mem.inited = true) (hok : titleInvalid d.title = false)
    (hm : s.mem.mode = Mode.immediate) :
    FileStorage.addTodo s d newId now .success =
      (.ok (mkTodo d newId now),
        { mem := { s.mem with map := mapSet s.mem.map (mkTodo d newId now), dirty := false },
          disk := { target := some (sortByCreated (mapSet s.mem.map (mkTodo d newId now))),
                    tmp := false } }) := by
  simp [FileStorage.addTodo, FileStorage.writeToDisk, ensureInit_of_inited h, hok, hm]

theorem fileAdd_immediate_fail (s : FileSt) (d : TodoData) (newId now : Str) (w : WOutcome)
    (h : s.mem.inited = true) (hok : titleInvalid d.title = false)
    (hm : s.mem.mode = Mode.immediate) (hw : wFails w = true) :
    FileStorage.addTodo s d newId now w =
      (.error .medium,
        { mem := { s.mem with map := mapSet s.mem.map (mkTodo d newId now), dirty := true },
          disk := { target := s.disk.target, tmp := !(rmOf w) } }) := by
  cases w with
  | success => simp [wFails] at hw
  | writeFail rm =>
    simp [FileStorage.addTodo, FileStorage.writeToDisk, ensureInit_of_inited h, hok, hm, rmOf]
  | renameFail rm =>
    simp [FileStorage.addTodo, FileStorage.writeToDisk, ensureInit_of_inited h, hok, hm, rmOf]

theorem fileGetAll (s : FileSt) (limit : Option Nat) (offset : Nat)
    (h : s.mem.inited = true) :
    FileStorage.getAllTodos s limit offset =
      (.ok (match limit with
            | none => sortByCreated s.mem.map
            | some l => ((sortByCreated s.mem.map).drop offset).take l), s) := by
  cases limit <;> simp [FileStorage.getAllTodos, ensureInit_of_inited h]

theorem fileGetById (s : FileSt) (i : Str) (h : s.mem.inited = true) :
    FileStorage.getTodoById s i = (.ok (mapGet s.mem.map i), s) := by
  simp [FileStorage.getTodoById, ensureInit_of_inited h]

theorem fileUpdate_absent (s : FileSt) (i : Str) (p : Patch) (now : Str) (w : WOutcome)
    (h : s.mem.inited = true) (habs : mapGet s.mem.map i = none) :
    FileStorage.updateTodo s i p now w = (.ok none, s) := by
  simp [FileStorage.updateTodo, ensureInit_of_inited h, habs]

theorem fileUpdate_onClose (s : FileSt) (i : Str) (p : Patch) (now : Str) (w : WOutcome)
    (ex : Todo) (h : s.mem.inited = true) (hex : mapGet s.mem.map i = some ex)
    (hm : s.mem.mode = Mode.onClose) :
    FileStorage.updateTodo s i p now w =
      (.ok (some (mergePatch ex p now)),
        { s with mem := { s.mem with map := mapSet s.mem.map (mergePatch ex p now), dirty := true } }) := by
  simp [FileStorage.updateTodo, ensureInit_of_inited h, hex, hm, mergePatch]

theorem fileUpdate_immediate_ok (s : FileSt) (i : Str) (p : Patch) (now : Str)
    (ex : Todo) (h : s.mem.inited = true) (hex : mapGet s.mem.map i = some ex)
    (hm : s.mem.mode = Mode.immediate) :
    FileStorage.updateTodo s i p now .success =
      (.ok (some (mergePatch ex p now)),
        { mem := { s.mem with map := mapSet s.mem.map (mergePatch ex p now), dirty := false },
          disk := { target := some (sortByCreated (mapSet s.mem.map (mergePatch ex p now))),
                    tmp := false } }) := by
  simp [FileStorage.updateTodo, FileStorage.writeToDisk, ensureInit_of_inited h, hex, hm,
    mergePatch]

theorem fileUpdate_immediate_fail (s : FileSt) (i : Str) (p : Patch) (now : Str) (w : WOutcome)
    (ex : Todo) (h : s.mem.inited = true) (hex : mapGet s.mem.map i = some ex)
    (hm : s.mem.mode = Mode.immediate) (hw : wFails w = true) :
    FileStorage.updateTodo s i p now w =
      (.error .medium,
        { mem := { s.mem with map := mapSet s.mem.map (mergePatch ex p now), dirty := true },
          disk := { target := s.disk.target, tmp := !(rmOf w) } }) := by
  cases w with
  | success => simp [wFails] at hw
  | writeFail rm =>
    simp [FileStorage.updateTodo, FileStorage.writeToDisk, ensureInit_of_inited h, hex, hm,
      rmOf, mergePatch]
  | renameFail rm =>
    simp [FileStorage.updateTodo, FileStorage.writeToDisk, ensureInit_of_inited h, hex, hm,
      rmOf, mergePatch]

theorem fileDelete_absent (s : FileSt) (i : Str) (w : WOutcome)
    (h : s.mem.inited = true) (habs : mapHas s.mem.map i = false) :
    FileStorage.deleteTodo s i w = (.ok false, s) := by
  simp [FileStorage.deleteTodo, ensureInit_of_inited h, habs]

theorem fileDelete_onClose (s : FileSt) (i : Str) (w : WOutcome)
    (h : s.mem.inited = true) (hpres : mapHas s.mem.map i = true)
    (hm : s.mem.mode = Mode.onClose) :
    FileStorage.deleteTodo s i w =
      (.ok true,
        { s with mem := { s.mem with map := mapDelete s.mem.map i, dirty := true } }) := by
  simp [FileStorage.deleteTodo, ensureInit_of_inited h, hpres, hm]

theorem fileDelete_immediate_ok (s : FileSt) (i : Str)
    (h : s.mem.inited = true) (hpres : mapHas s.mem.map i = true)
    (hm : s.mem.mode = Mode.immediate) :
    FileStorage.deleteTodo s i .success =
      (.ok true,
        { mem := { s.mem with map := mapDelete s.mem.map i, dirty := false },
          disk := { target := some (sortByCreated (mapDelete s.mem.map i)), tmp := false } }) := by
  simp [FileStorage.deleteTodo, FileStorage.writeToDisk, ensureInit_of_inited h, hpres, hm]

theorem fileDelete_immediate_fail (s : FileSt) (i : Str) (w : WOutcome)
    (h : s.mem.inited = true) (hpres : mapHas s.mem.map i = true)
    (hm : s.mem.mode = Mode.immediate) (hw : wFails w = true) :
    FileStorage.deleteTodo s i w =
      (.error .medium,
        { mem := { s.mem with map := mapDelete s.mem.map i, dirty := true },
          disk := { target := s.disk.target, tmp := !(rmOf w) } }) := by
  cases w with
  | success => simp [wFails] at hw
  | writeFail rm =>
    simp [FileStorage.deleteTodo, FileStorage.writeToDisk, ensureInit_of_inited h, hpres, hm, rmOf]
  | renameFail rm =>
    simp [FileStorage.deleteTodo, FileStorage.writeToDisk, ensureInit_of_inited h, hpres, hm, rmOf]

/-! ### Evaluation lemmas for the Relational Backend on an initialized state -/

theorem sqlInit_inited (q : SqlSt) (h : q.inited = true) :
    SqliteFileStorage.init q = (.ok (), q) := by
  simp [SqliteFileStorage.init, h]

theorem sqlAdd_invalid (q : SqlSt) (d : TodoData) (newId now : Str)
    (h : q.inited = true) (hbad : titleInvalid d.title = true) :
    SqliteFileStorage.addTodo q d newId now = (.error .validation, q) := by
  simp [SqliteFileStorage.addTodo, h, hbad]

theorem sqlAdd_ok (q : SqlSt) (d : TodoData) (newId now : Str)
    (h : q.inited = true) (hok : titleInvalid d.title = false)
    (hfresh : q.rows.any (fun r => r.id == newId) = false) :
    SqliteFileStorage.addTodo q d newId now =
      (.ok (mkTodo d newId now), { q with rows := q.rows ++ [rowOf (mkTodo d newId now)] }) := by
  have hid : (mkTodo d newId now).id = newId := rfl
  simp [SqliteFileStorage.addTodo, h, hok, hid, hfresh, rowOf]

theorem sqlGetAll (q : SqlSt) (limit : Option Nat) (offset : Nat) (h : q.inited = true) :
    SqliteFileStorage.getAllTodos q limit offset =
      (.ok (match limit with
            | none => (sortRows q.rows).map rowToTodo
            | some l => (((sortRows q.rows).drop offset).take l).map rowToTodo), q) := by
  cases limit <;> simp [SqliteFileStorage.getAllTodos, h]

theorem sqlGetById (q : SqlSt) (i : Str) (h : q.inited = true) :
    SqliteFileStorage.getTodoById q i =
      (.ok ((q.rows.find? (fun r => r.id == i)).map rowToTodo), q) := by
  simp [SqliteFileStorage.getTodoById, h]

theorem sqlUpdate_absent (q : SqlSt) (i : Str) (p : Patch) (now : Str)
    (h : q.inited = true) (habs : q.rows.find? (fun r => r.id == i) = none) :
    SqliteFileStorage.updateTodo q i p now = (.ok none, q) := by
  simp [SqliteFileStorage.updateTodo, h, habs]

theorem sqlUpdate_present (q : SqlSt) (i : Str) (p : Patch) (now : Str) (r0 : Row)
    (h : q.inited = true) (hex : q.rows.find? (fun r => r.id == i) = some r0) :
    SqliteFileStorage.updateTodo q i p now =
      (.ok (some (mergePatch (rowToTodo r0) p now)),
        { q with rows := q.rows.map (fun r =>
            if r.id == i then rowUpd (mergePatch (rowToTodo r0) p now) r else r) }) := by
  simp [SqliteFileStorage.updateTodo, h, hex, mergePatch, rowUpd]

theorem sqlDelete (q : SqlSt) (i : Str) (h : q.inited = true) :
    SqliteFileStorage.deleteTodo q i =
      (.ok (q.rows.any (fun r => r.id == i)),
        { q with rows := q.rows.filter (fun r => !(r.id == i)) }) := by
  simp [SqliteFileStorage.deleteTodo, h, filterPos_eq_any]

theorem fileClose_not_inited (s : FileSt) (w : WOutcome) (h : s.mem.inited = false) :
    FileStorage.close s w = (.ok (), s) := by
  simp [FileStorage.close, h]

theorem fileClose_flush (s : FileSt) (h : s.mem.inited = true)
    (hm : s.mem.mode = Mode.onClose) (hd : s.mem.dirty = true) :
    FileStorage.close s .success =
      (.ok (), { mem := { s.mem with dirty := false, inited := false },
                 disk := { target := some (sortByCreated s.mem.map), tmp := false } }) := by
  simp [FileStorage.close, FileStorage.writeToDisk, h, hm, hd]

theorem fileClose_noflush (s : FileSt) (w : WOutcome) (h : s.mem.inited = true)
    (hnf : ¬(s.mem.mode = Mode.onClose ∧ s.mem.dirty = true)) :
    FileStorage.close s w = (.ok (), { s with mem := { s.mem with inited := false } }) := by
  simp only [FileStorage.close, h, Bool.true_eq_false, if_false, if_neg hnf]

/-! ### Bridge lemmas between the two backends -/

theorem mapHas_rows (l : List Row) (i : Str) :
    mapHas (l.map rowToTodo) i = l.any (fun r => r.id == i) := by
  unfold mapHas
  rw [any_map_comm]
  rfl

theorem idsOf_rows (l : List Row) : idsOf (l.map rowToTodo) = l.map (fun r => r.id) := by
  unfold idsOf
  rw [List.map_map]
  rfl

theorem doneRoundTrip (b : Bool) : ((if b then (1 : Nat) else 0) == 1) = b := by
  cases b <;> rfl

theorem rowToTodo_rowOf (t : Todo) : rowToTodo (rowOf t) = t := by
  show ({ id := t.id, title := t.title, description := t.description,
          done := (if t.done then (1 : Nat) else 0) == 1, createdAt := t.createdAt,
          updatedAt := t.updatedAt } : Todo) = t
  rw [doneRoundTrip]

theorem rowToTodo_rowUpd (u : Todo) (r : Row) (hid : r.id = u.id) (hc : r.created_at = u.createdAt) :
    rowToTodo (rowUpd u r) = u := by
  show ({ id := r.id, title := u.title, description := u.description,
          done := (if u.done then (1 : Nat) else 0) == 1, createdAt := r.created_at,
          updatedAt := u.updatedAt } : Todo) = u
  rw [doneRoundTrip, hid, hc]

theorem mapSet_append (m : List Todo) (t : Todo) (h : mapHas m t.id = false) :
    mapSet m t = m ++ [t] := by
  unfold mapSet
  rw [if_neg]
  simp [h]

theorem mapHas_false_not_mem (m : List Todo) (i : Str) (h : mapHas m i = false) :
    i ∉ idsOf m := by
  intro hmem
  obtain ⟨t, htm, hti⟩ := List.mem_map.mp hmem
  have : m.any (fun x => x.id == i) = true := List.any_eq_true.mpr ⟨t, htm, by simp [hti]⟩
  rw [mapHas] at h
  rw [this] at h
  exact Bool.true_eq_false.mp h

theorem idsOf_append (m : List Todo) (t : Todo) : idsOf (m ++ [t]) = idsOf m ++ [t.id] := by
  simp [idsOf]

theorem nodup_append_fresh (m : List Todo) (t : Todo)
    (hnd : (idsOf m).Nodup) (h : mapHas m t.id = false) :
    (idsOf (m ++ [t])).Nodup := by
  rw [idsOf_append]
  refine List.Nodup.append hnd (List.nodup_singleton _) ?_
  intro a ha hb
  rw [List.mem_singleton] at hb
  subst hb
  exact mapHas_false_not_mem m t.id h ha

theorem idsOf_replace (m : List Todo) (u : Todo) :
    idsOf (m.map (fun x => if x.id == u.id then u else x)) = idsOf m := by
  unfold idsOf
  rw [List.map_map]
  apply List.map_congr_left
  intro x _
  by_cases h : (x.id == u.id) = true
  · show (if x.id == u.id then u else x).id = x.id
    rw [if_pos h]
    exact ((by simpa using h : x.id = u.id)).symm
  · show (if x.id == u.id then u else x).id = x.id
    rw [if_neg h]

theorem nodup_delete (m : List Todo) (i : Str) (hnd : (idsOf m).Nodup) :
    (idsOf (mapDelete m i)).Nodup := by
  unfold idsOf mapDelete
  exact List.Nodup.sublist (List.Sublist.map _ (List.filter_sublist m)) hnd

theorem update_rows_comm (rows : List Row) (i : Str) (u : Todo) (r0 : Row)
    (hnd : (rows.map (fun r => r.id)).Nodup)
    (hfind : rows.find? (fun r => r.id == i) = some r0)
    (hid : u.id = i) (hc : u.createdAt = r0.created_at) :
    (rows.map rowToTodo).map (fun x => if x.id == u.id then u else x) =
      (rows.map (fun r => if r.id == i then rowUpd u r else r)).map rowToTodo := by
  rw [List.map_map, List.map_map]
  apply List.map_congr_left
  intro r hr
  have hr0mem := List.mem_of_find?_eq_some hfind
  have hr0p := List.find?_some hfind
  simp only [Function.comp_apply]
  by_cases h : (r.id == i) = true
  · have hreq : r = r0 := by
      refine List.inj_on_of_nodup_map hnd hr hr0mem ?_
      have h1 : r.id = i := by simpa using h
      have h2 : r0.id = i := by simpa using hr0p
      rw [h1, h2]
    have hcond : ((rowToTodo r).id == u.id) = true := by
      rw [rowToTodo_id, hid]
      exact h
    rw [if_pos hcond, if_pos h]
    refine (rowToTodo_rowUpd u r ?_ ?_).symm
    · rw [hid]
      simpa using h
    · rw [hreq, hc]
  · have hcond : ((rowToTodo r).id == u.id) = false := by
      rw [rowToTodo_id, hid]
      simpa using h
    rw [if_neg (by simp [hcond]), if_neg h]

theorem mapHas_of_mapGet (m : List Todo) (i : Str) (t : Todo) (h : mapGet m i = some t) :
    mapHas m i = true := by
  unfold mapGet at h
  have h1 := List.mem_of_find?_eq_some h
  have h2 := List.find?_some h
  unfold mapHas
  exact List.any_eq_true.mpr ⟨t, h1, h2⟩

/-! ### One-step equivalence of the two backends on agreeing initialized states -/

theorem stepAgree (s : FileSt) (q : SqlSt) (op : Op)
    (hA : Agree s q) (hnd : (idsOf s.mem.map).Nodup)
    (hcl : op ≠ Op.opClose)
    (hfr : ∀ d n t, op = Op.opAdd d n t → mapHas s.mem.map n = false) :
    (stepFile s op).1 = (stepSql q op).1 ∧
      Agree (stepFile s op).2 (stepSql q op).2 ∧
      (idsOf (stepFile s op).2.mem.map).Nodup := by
  obtain ⟨hin, hqin, hmap⟩ := hA
  cases op with
  | opClose => exact absurd rfl hcl
  | opInit =>
    have hf : stepFile s Op.opInit = (Obs.ounit, s) := by
      simp [stepFile, fileInit_inited s hin, obsUnit]
    have hq : stepSql q Op.opInit = (Obs.ounit, q) := by
      simp [stepSql, sqlInit_inited q hqin, obsUnit]
    rw [hf, hq]
    exact ⟨rfl, ⟨hin, hqin, hmap⟩, hnd⟩
  | opAdd d newId now =>
    have hfr' : mapHas s.mem.map newId = false := hfr d newId now rfl
    by_cases hbad : titleInvalid d.title = true
    · have hf : stepFile s (Op.opAdd d newId now) = (Obs.oerr .validation, s) := by
        simp [stepFile, fileAdd_invalid s d newId now .success hin hbad, obsTodo]
      have hq : stepSql q (Op.opAdd d newId now) = (Obs.oerr .validation, q) := by
        simp [stepSql, sqlAdd_invalid q d newId now hqin hbad, obsTodo]
      rw [hf, hq]
      exact ⟨rfl, ⟨hin, hqin, hmap⟩, hnd⟩
    · have hok : titleInvalid d.title = false := by simpa using hbad
      have hsqlfresh : q.rows.any (fun r => r.id == newId) = false := by
        rw [← mapHas_rows, ← hmap]
        exact hfr'
      have happend : mapSet s.mem.map (mkTodo d newId now) = s.mem.map ++ [mkTodo d newId now] :=
        mapSet_append _ _ hfr'
      have hq : stepSql q (Op.opAdd d newId now) =
          (Obs.otodo (mkTodo d newId now),
            { q with rows := q.rows ++ [rowOf (mkTodo d newId now)] }) := by
        simp [stepSql, sqlAdd_ok q d newId now hqin hok hsqlfresh, obsTodo]
      have hmap' : s.mem.map ++ [mkTodo d newId now] =
          (q.rows ++ [rowOf (mkTodo d newId now)]).map rowToTodo := by
        rw [List.map_append, ← hmap]
        simp [rowToTodo_rowOf]
      have hnd' : (idsOf (s.mem.map ++ [mkTodo d newId now])).Nodup :=
        nodup_append_fresh _ _ hnd hfr'
      have hfacet : (stepFile s (Op.opAdd d newId now)).1 = Obs.otodo (mkTodo d newId now) ∧
          (stepFile s (Op.opAdd d newId now)).2.mem.inited = true ∧
          (stepFile s (Op.opAdd d newId now)).2.mem.map = s.mem.map ++ [mkTodo d newId now] := by
        cases hm : s.mem.mode with
        | onClose =>
          simp [stepFile, fileAdd_onClose s d newId now .success hin hok hm, obsTodo, happend, hin]
        | immediate =>
          simp [stepFile, fileAdd_immediate_ok s d newId now hin hok hm, obsTodo, happend, hin]
      rw [hq]
      refine ⟨hfacet.1, ⟨hfacet.2.1, hqin, ?_⟩, ?_⟩
      · rw [hfacet.2.2]
        exact hmap'
      · rw [hfacet.2.2]
        exact hnd'
  | opGetAll limit offset =>
    cases limit with
    | none =>
      have hf : stepFile s (Op.opGetAll none offset) =
          (Obs.olist (sortByCreated s.mem.map), s) := by
        simp [stepFile, fileGetAll s none offset hin, obsList]
      have hq : stepSql q (Op.opGetAll none offset) =
          (Obs.olist ((sortRows q.rows).map rowToTodo), q) := by
        simp [stepSql, sqlGetAll q none offset hqin, obsList]
      rw [hf, hq]
      refine ⟨?_, ⟨hin, hqin, hmap⟩, hnd⟩
      rw [hmap, sort_map_comm]
    | some l =>
      have hf : stepFile s (Op.opGetAll (some l) offset) =
          (Obs.olist (((sortByCreated s.mem.map).drop offset).take l), s) := by
        simp [stepFile, fileGetAll s (some l) offset hin, obsList]
      have hq : stepSql q (Op.opGetAll (some l) offset) =
          (Obs.olist ((((sortRows q.rows).drop offset).take l).map rowToTodo), q) := by
        simp [stepSql, sqlGetAll q (some l) offset hqin, obsList]
      rw [hf, hq]
      refine ⟨?_, ⟨hin, hqin, hmap⟩, hnd⟩
      rw [hmap, sort_map_comm, ← List.map_drop, ← List.map_take]
  | opGetById i =>
    have hf : stepFile s (Op.opGetById i) = (Obs.oopt (mapGet s.mem.map i), s) := by
      simp [stepFile, fileGetById s i hin, obsOpt]
    have hq : stepSql q (Op.opGetById i) =
        (Obs.oopt ((q.rows.find? (fun r => r.id == i)).map rowToTodo), q) := by
      simp [stepSql, sqlGetById q i hqin, obsOpt]
    rw [hf, hq]
    refine ⟨?_, ⟨hin, hqin, hmap⟩, hnd⟩
    rw [hmap]
    unfold mapGet
    rw [find_map_comm]
  | opUpdate i p now =>
    cases hfind : q.rows.find? (fun r => r.id == i) with
    | none =>
      have habs : mapGet s.mem.map i = none := by
        rw [hmap]
        unfold mapGet
        rw [find_map_comm, hfind]
        rfl
      have hf : stepFile s (Op.opUpdate i p now) = (Obs.oopt none, s) := by
        simp [stepFile, fileUpdate_absent s i p now .success hin habs, obsOpt]
      have hq : stepSql q (Op.opUpdate i p now) = (Obs.oopt none, q) := by
        simp [stepSql, sqlUpdate_absent q i p now hqin hfind, obsOpt]
      rw [hf, hq]
      exact ⟨rfl, ⟨hin, hqin, hmap⟩, hnd⟩
    | some r0 =>
      have hex : mapGet s.mem.map i = some (rowToTodo r0) := by
        rw [hmap]
        unfold mapGet
        rw [find_map_comm, hfind]
        rfl
      have hr0p := List.find?_some hfind
      have huid : (mergePatch (rowToTodo r0) p now).id = i := by
        show r0.id = i
        simpa using hr0p
      have huc : (mergePatch (rowToTodo r0) p now).createdAt = r0.created_at := rfl
      have hhas : mapHas s.mem.map (mergePatch (rowToTodo r0) p now).id = true := by
        rw [huid]
        exact mapHas_of_mapGet _ _ _ hex
      have hset : mapSet s.mem.map (mergePatch (rowToTodo r0) p now) =
          s.mem.map.map (fun x => if x.id == (mergePatch (rowToTodo r0) p now).id
            then mergePatch (rowToTodo r0) p now else x) := by
        unfold mapSet
        rw [if_pos hhas]
      have hndrows : (q.rows.map (fun r => r.id)).Nodup := by
        rw [← idsOf_rows, ← hmap]
        exact hnd
      have hcomm : s.mem.map.map (fun x => if x.id == (mergePatch (rowToTodo r0) p now).id
            then mergePatch (rowToTodo r0) p now else x) =
          (q.rows.map (fun r => if r.id == i then rowUpd (mergePatch (rowToTodo r0) p now) r else r)).map
            rowToTodo := by
        rw [hmap]
        exact update_rows_comm q.rows i (mergePatch (rowToTodo r0) p now) r0 hndrows hfind huid huc
      have hndnew : (idsOf (s.mem.map.map (fun x => if x.id == (mergePatch (rowToTodo r0) p now).id
            then mergePatch (rowToTodo r0) p now else x))).Nodup := by
        rw [idsOf_replace]
        exact hnd
      have hq : stepSql q (Op.opUpdate i p now) =
          (Obs.oopt (some (mergePatch (rowToTodo r0) p now)),
            { q with rows := q.rows.map (fun r =>
                if r.id == i then rowUpd (mergePatch (rowToTodo r0) p now) r else r) }) := by
        simp [stepSql, sqlUpdate_present q i p now r0 hqin hfind, obsOpt]
      have hfacet : (stepFile s (Op.opUpdate i p now)).1 =
            Obs.oopt (some (mergePatch (rowToTodo r0) p now)) ∧
          (stepFile s (Op.opUpdate i p now)).2.mem.inited = true ∧
          (stepFile s (Op.opUpdate i p now)).2.mem.map =
            mapSet s.mem.map (mergePatch (rowToTodo r0) p now) := by
        cases hm : s.mem.mode with
        | onClose =>
          simp [stepFile, fileUpdate_onClose s i p now .success (rowToTodo r0) hin hex hm, obsOpt, hin]
        | immediate =>
          simp [stepFile, fileUpdate_immediate_ok s i p now (rowToTodo r0) hin hex hm, obsOpt, hin]
      rw [hq]
      refine ⟨hfacet.1, ⟨hfacet.2.1, hqin, ?_⟩, ?_⟩
      · rw [hfacet.2.2, hset]
        exact hcomm
      · rw [hfacet.2.2, hset]
        exact hndnew
  | opDelete i =>
    cases hhas : mapHas s.mem.map i with
    | false =>
      have hany : q.rows.any (fun r => r.id == i) = false := by
        rw [← mapHas_rows, ← hmap]
        exact hhas
      have hf : stepFile s (Op.opDelete i) = (Obs.obool false, s) := by
        simp [stepFile, fileDelete_absent s i .success hin hhas, obsBool]
      have hflt : q.rows.filter (fun r => !(r.id == i)) = q.rows := by
        rw [List.filter_eq_self]
        intro r hr
        have hfalse : (r.id == i) = false := by
          cases hc : (r.id == i) with
          | false => rfl
          | true =>
            have hcontra : q.rows.any (fun x => x.id == i) = true :=
              List.any_eq_true.mpr ⟨r, hr, hc⟩
            rw [hcontra] at hany
            exact absurd hany (by simp)
        simp [hfalse]
      have hq : stepSql q (Op.opDelete i) = (Obs.obool false, q) := by
        have hd := sqlDelete q i hqin
        rw [hany, hflt] at hd
        simp only [stepSql, hd, obsBool]
      rw [hf, hq]
      exact ⟨rfl, ⟨hin, hqin, hmap⟩, hnd⟩
    | true =>
      have hany : q.rows.any (fun r => r.id == i) = true := by
        rw [← mapHas_rows, ← hmap]
        exact hhas
      have hdel : mapDelete s.mem.map i = (q.rows.filter (fun r => !(r.id == i))).map rowToTodo := by
        unfold mapDelete
        rw [hmap]
        exact filter_map_comm q.rows i
      have hq : stepSql q (Op.opDelete i) =
          (Obs.obool true, { q with rows := q.rows.filter (fun r => !(r.id == i)) }) := by
        have := sqlDelete q i hqin
        rw [hany] at this
        simp only [stepSql, this, obsBool]
      have hfacet : (stepFile s (Op.opDelete i)).1 = Obs.obool true ∧
          (stepFile s (Op.opDelete i)).2.mem.inited = true ∧
          (stepFile s (Op.opDelete i)).2.mem.map = mapDelete s.mem.map i := by
        cases hm : s.mem.mode with
        | onClose =>
          simp [stepFile, fileDelete_onClose s i .success hin hhas hm, obsBool, hin]
        | immediate =>
          simp [stepFile, fileDelete_immediate_ok s i hin hhas hm, obsBool, hin]
      rw [hq]
      refine ⟨hfacet.1, ⟨hfacet.2.1, hqin, ?_⟩, ?_⟩
      · rw [hfacet.2.2]
        exact hdel
      · rw [hfacet.2.2]
        exact nodup_delete _ _ hnd

/-! ### Trace-level equivalence -/

theorem runAgree : ∀ (ops : List Op) (s : FileSt) (q : SqlSt),
    Agree s q → (idsOf s.mem.map).Nodup → Op.opClose ∉ ops → freshRun s ops = true →
    runFile s ops = runSql q ops
  | [], _, _, _, _, _, _ => rfl
  | op :: rest, s, q, hA, hnd, hcl, hfr => by
    have hclh : op ≠ Op.opClose := fun h => hcl (h ▸ List.mem_cons_self op rest)
    have hfr2 : freshRun (stepFile s op).2 rest = true := by
      rw [freshRun, Bool.and_eq_true] at hfr
      exact hfr.2
    have hfri : ∀ d n t, op = Op.opAdd d n t → mapHas s.mem.map n = false := by
      intro d n t hop
      subst hop
      rw [freshRun, Bool.and_eq_true] at hfr
      simpa [opFresh] using hfr.1
    have h3 := stepAgree s q op hA hnd hclh hfri
    show (stepFile s op).1 :: runFile (stepFile s op).2 rest =
      (stepSql q op).1 :: runSql (stepSql q op).2 rest
    rw [h3.1,
      runAgree rest _ _ h3.2.1 h3.2.2 (fun hm => hcl (List.mem_cons_of_mem _ hm)) hfr2]

theorem mapGet_none_of_has_false (m : List Todo) (i : Str) (h : mapHas m i = false) :
    mapGet m i = none := by
  unfold mapGet
  rw [List.find?_eq_none]
  intro x hx
  intro hp
  have : mapHas m i = true := List.any_eq_true.mpr ⟨x, hx, hp⟩
  rw [this] at h
  exact absurd h (by simp)

theorem find?_none_of_any_false {α : Type} (l : List α) (p : α → Bool) (h : l.any p = false) :
    l.find? p = none := by
  rw [List.find?_eq_none]
  intro x hx hp
  have : l.any p = true := List.any_eq_true.mpr ⟨x, hx, hp⟩
  rw [this] at h
  exact absurd h (by simp)

theorem filter_id_of_any_false {α : Type} (l : List α) (p : α → Bool) (h : l.any p = false) :
    l.filter (fun a => !(p a)) = l := by
  rw [List.filter_eq_self]
  intro a ha
  cases hc : p a with
  | false => simp [hc]
  | true =>
    have : l.any p = true := List.any_eq_true.mpr ⟨a, ha, hc⟩
    rw [this] at h
    exact absurd h (by simp)

theorem find?_filter_not {α : Type} (l : List α) (p : α → Bool) :
    (l.filter (fun a => !(p a))).find? p = none := by
  rw [List.find?_eq_none]
  intro x hx hp
  have := (List.mem_filter.mp hx).2
  rw [hp] at this
  exact absurd this (by simp)

/-! ## Claim theorems -/

/-- C1 counterexample: the claim is false as stated.  From the same fresh
initial state (both backends freshly constructed against an empty medium,
`init` not yet called), a single `addTodo` call with a valid title succeeds
on the File Backend (which lazily auto-initializes) but raises the
not-initialized error on the Relational Backend, so a caller can
distinguish the backends through the contract. -/
theorem C1_counterexample :
    runFile (fileStart Mode.onClose)
        [Op.opAdd { title := some ['a'], description := none, done := false } ['i'] ['t']] ≠
      runSql sqlStart
        [Op.opAdd { title := some ['a'], description := none, done := false } ['i'] ['t']] := by
  decide

/-- C1 (amended): for every sequence of contract operations that begins with
`init` and contains no `close`, issued from the same fresh initial state,
with matching backend-generated ids and timestamps, fresh generated ids and
a healthy medium, the File Backend and the Relational Backend produce the
same observable results (return values and raised errors), so a caller
cannot distinguish the backends through such traces.  The divergence the
counterexample exhibits exists only for operations issued while a backend
is not initialized (before `init`, or after a `close`): there the File
Backend lazily auto-initializes while the Relational Backend throws. -/
theorem C1_backend_equivalence (mode : Mode) (ops : List Op)
    (hcl : Op.opClose ∉ ops)
    (hfr : freshRun (fileStart mode) (Op.opInit :: ops) = true) :
    runFile (fileStart mode) (Op.opInit :: ops) = runSql sqlStart (Op.opInit :: ops) := by
  have hstep : stepFile (fileStart mode) Op.opInit =
      (Obs.ounit, { mem := { inited := true, dirty := true, map := [], mode := mode },
                    disk := { target := none, tmp := false } }) := by
    simp [stepFile, FileStorage.init, fileStart, FileStorage.newMem, obsUnit]
  have hstepq : stepSql sqlStart Op.opInit = (Obs.ounit, { inited := true, rows := [] }) := by
    simp [stepSql, SqliteFileStorage.init, sqlStart, SqliteFileStorage.newSt, obsUnit]
  have hfr0 : freshRun (stepFile (fileStart mode) Op.opInit).2 ops = true := by
    rw [freshRun, Bool.and_eq_true] at hfr
    exact hfr.2
  have htail : runFile (stepFile (fileStart mode) Op.opInit).2 ops =
      runSql (stepSql sqlStart Op.opInit).2 ops := by
    apply runAgree ops _ _ ?_ ?_ hcl hfr0
    · rw [hstep, hstepq]
      exact ⟨rfl, rfl, rfl⟩
    · rw [hstep]
      exact List.nodup_nil
  show (stepFile (fileStart mode) Op.opInit).1 :: runFile (stepFile (fileStart mode) Op.opInit).2 ops =
    (stepSql sqlStart Op.opInit).1 :: runSql (stepSql sqlStart Op.opInit).2 ops
  rw [hstep, hstepq] at *
  rw [htail]

/-- Witness for C1 (amended): a concrete trace — init, two adds, a paginated
and an unpaginated listing, a get, an update, a delete and a final listing —
satisfies the hypotheses and yields identical observations on both
backends. -/
theorem C1_backend_equivalence_witness :
    (Op.opClose ∉
        ([Op.opAdd { title := some ['a'], description := some ['d'], done := false } ['i'] ['s'],
          Op.opAdd { title := some ['b'], description := none, done := true } ['j'] ['t'],
          Op.opGetAll none 0, Op.opGetAll (some 1) 1, Op.opGetById ['i'],
          Op.opUpdate ['i'] { title := some ['c'], description := none, done := some true } ['u'],
          Op.opDelete ['j'], Op.opGetAll none 0] : List Op)) ∧
      runFile (fileStart Mode.onClose)
          (Op.opInit ::
            [Op.opAdd { title := some ['a'], description := some ['d'], done := false } ['i'] ['s'],
             Op.opAdd { title := some ['b'], description := none, done := true } ['j'] ['t'],
             Op.opGetAll none 0, Op.opGetAll (some 1) 1, Op.opGetById ['i'],
             Op.opUpdate ['i'] { title := some ['c'], description := none, done := some true } ['u'],
             Op.opDelete ['j'], Op.opGetAll none 0]) =
        runSql sqlStart
          (Op.opInit ::
            [Op.opAdd { title := some ['a'], description := some ['d'], done := false } ['i'] ['s'],
             Op.opAdd { title := some ['b'], description := none, done := true } ['j'] ['t'],
             Op.opGetAll none 0, Op.opGetAll (some 1) 1, Op.opGetById ['i'],
             Op.opUpdate ['i'] { title := some ['c'], description := none, done := some true } ['u'],
             Op.opDelete ['j'], Op.opGetAll none 0]) :=
  ⟨by decide, C1_backend_equivalence Mode.onClose _ (by decide) (by decide)⟩

/-- C3: the File Backend write path.  On success `_writeToDisk` replaces the
target file with the full in-memory set serialized in ascending `createdAt`
order (sorted, and a permutation of the map), leaves no temporary file, and
clears the dirty flag only then.  On a failing write or rename it returns
the medium error, leaves the target file and the dirty flag exactly as they
were, and removes the temporary file when the best-effort `rm` succeeds
(`tmp = !rm`). -/
theorem C3_write_path (s : FileSt) :
    (FileStorage.writeToDisk s .success =
        (.ok (), { mem := { s.mem with dirty := false },
                   disk := { target := some (sortByCreated s.mem.map), tmp := false } })) ∧
      List.Sorted todoLe (sortByCreated s.mem.map) ∧
      (sortByCreated s.mem.map).Perm s.mem.map ∧
      (∀ rm, FileStorage.writeToDisk s (.writeFail rm) =
        (.error .medium, { s with disk := { s.disk with tmp := !rm } })) ∧
      (∀ rm, FileStorage.writeToDisk s (.renameFail rm) =
        (.error .medium, { s with disk := { s.disk with tmp := !rm } })) :=
  ⟨rfl, List.sorted_insertionSort todoLe s.mem.map, List.perm_insertionSort todoLe s.mem.map,
    fun _ => rfl, fun _ => rfl⟩

/-- C9: lazy-init fallback of the File Backend.  A mutating call on a
freshly constructed, never-initialized instance does not fail: `_ensureInit`
turns the constructor state into exactly the state `init()` produces on a
missing file (initialized, empty map, dirty), and therefore `addTodo`,
`updateTodo` and `deleteTodo` behave identically to the same calls on that
initialized empty store. -/
theorem C9_lazy_init (mode : Mode) (dk : Disk) (d : TodoData) (newId now i : Str)
    (p : Patch) (pnow : Str) (w : WOutcome) :
    FileStorage.ensureInit (FileStorage.newMem mode) =
        { inited := true, dirty := true, map := [], mode := mode } ∧
      (FileStorage.init { mem := FileStorage.newMem mode, disk := { target := none, tmp := false } }).2 =
        { mem := { inited := true, dirty := true, map := [], mode := mode },
          disk := { target := none, tmp := false } } ∧
      FileStorage.addTodo { mem := FileStorage.newMem mode, disk := dk } d newId now w =
        FileStorage.addTodo
          { mem := { inited := true, dirty := true, map := [], mode := mode }, disk := dk }
          d newId now w ∧
      FileStorage.updateTodo { mem := FileStorage.newMem mode, disk := dk } i p pnow w =
        FileStorage.updateTodo
          { mem := { inited := true, dirty := true, map := [], mode := mode }, disk := dk }
          i p pnow w ∧
      FileStorage.deleteTodo { mem := FileStorage.newMem mode, disk := dk } i w =
        FileStorage.deleteTodo
          { mem := { inited := true, dirty := true, map := [], mode := mode }, disk := dk }
          i w :=
  ⟨rfl, rfl, rfl, rfl, rfl⟩

/-- C4: the frame effect of `updateTodo` on an existing id, on both
backends.  The returned record is the stored record with the patch merged
over it: `id` and `createdAt` are those of the prior record, `updatedAt` is
the current timestamp, and every field the patch does not supply (title,
description, done) keeps its prior value exactly. -/
theorem C4_update_frame (s : FileSt) (q : SqlSt) (i : Str) (p : Patch) (now : Str)
    (ex : Todo) (r0 : Row)
    (hin : s.mem.inited = true) (hex : mapGet s.mem.map i = some ex)
    (hq : q.inited = true) (hr : q.rows.find? (fun r => r.id == i) = some r0) :
    ((FileStorage.updateTodo s i p now .success).1 = .ok (some (mergePatch ex p now)) ∧
      (mergePatch ex p now).id = ex.id ∧
      (mergePatch ex p now).createdAt = ex.createdAt ∧
      (mergePatch ex p now).updatedAt = now ∧
      (p.title = none → (mergePatch ex p now).title = ex.title) ∧
      (p.description = none → (mergePatch ex p now).description = ex.description) ∧
      (p.done = none → (mergePatch ex p now).done = ex.done)) ∧
    ((SqliteFileStorage.updateTodo q i p now).1 = .ok (some (mergePatch (rowToTodo r0) p now)) ∧
      (mergePatch (rowToTodo r0) p now).id = r0.id ∧
      (mergePatch (rowToTodo r0) p now).createdAt = r0.created_at ∧
      (mergePatch (rowToTodo r0) p now).updatedAt = now ∧
      (p.title = none → (mergePatch (rowToTodo r0) p now).title = r0.title) ∧
      (p.description = none → (mergePatch (rowToTodo r0) p now).description = r0.description) ∧
      (p.done = none → (mergePatch (rowToTodo r0) p now).done = (r0.done == 1))) := by
  constructor
  · refine ⟨?_, rfl, rfl, rfl, ?_, ?_, ?_⟩
    · cases hm : s.mem.mode with
      | onClose => rw [fileUpdate_onClose s i p now .success ex hin hex hm]
      | immediate => rw [fileUpdate_immediate_ok s i p now ex hin hex hm]
    · intro h
      simp [mergePatch, h]
    · intro h
      simp [mergePatch, h]
    · intro h
      simp [mergePatch, h]
  · refine ⟨?_, rfl, rfl, rfl, ?_, ?_, ?_⟩
    · rw [sqlUpdate_present q i p now r0 hq hr]
    · intro h
      simp [mergePatch, h, rowToTodo]
    · intro h
      simp [mergePatch, h, rowToTodo]
    · intro h
      simp [mergePatch, h, rowToTodo]

/-- Witness for C4: a concrete store holding one record on each backend and
a patch supplying only `done`; the update keeps id, createdAt, title and
description, and refreshes updatedAt. -/
theorem C4_update_frame_witness :
    (mapGet [{ id := ['i'], title := ['a'], description := ['d'], done := false,
               createdAt := ['s'], updatedAt := ['s'] }] ['i'] =
        some { id := ['i'], title := ['a'], description := ['d'], done := false,
               createdAt := ['s'], updatedAt := ['s'] }) ∧
      ((FileStorage.updateTodo
          { mem := { inited := true, dirty := false,
                     map := [{ id := ['i'], title := ['a'], description := ['d'], done := false,
                               createdAt := ['s'], updatedAt := ['s'] }], mode := Mode.onClose },
            disk := { target := none, tmp := false } }
          ['i'] { title := none, description := none, done := some true } ['u'] .success).1 =
        .ok (some { id := ['i'], title := ['a'], description := ['d'], done := true,
                    createdAt := ['s'], updatedAt := ['u'] })) := by
  constructor
  · decide
  · have h := (C4_update_frame
      { mem := { inited := true, dirty := false,
                 map := [{ id := ['i'], title := ['a'], description := ['d'], done := false,
                           createdAt := ['s'], updatedAt := ['s'] }], mode := Mode.onClose },
        disk := { target := none, tmp := false } }
      { inited := true,
        rows := [{ id := ['i'], title := ['a'], description := ['d'], done := 0,
                   created_at := ['s'], updated_at := ['s'] }] }
      ['i'] { title := none, description := none, done := some true } ['u']
      { id := ['i'], title := ['a'], description := ['d'], done := false,
        createdAt := ['s'], updatedAt := ['s'] }
      { id := ['i'], title := ['a'], description := ['d'], done := 0,
        created_at := ['s'], updated_at := ['s'] }
      (by decide) (by decide) (by decide) (by decide)).1.1
    exact h

/-- C5: `addTodo` validation and result on both backends.  With a healthy
medium and a fresh generated id, the call returns the validation error
exactly when the title is missing, not a string, or blank after trimming
(`titleInvalid`); otherwise it returns the new todo — generated id, given
title, description defaulting to the empty string, `done` coerced, and
`createdAt = updatedAt = now` — and appends that record to the store, the
store being unchanged in the validation-error case. -/
theorem C5_add_validation (s : FileSt) (q : SqlSt) (d : TodoData) (newId now : Str)
    (hin : s.mem.inited = true) (hq : q.inited = true)
    (hfrF : mapHas s.mem.map newId = false)
    (hfrQ : q.rows.any (fun r => r.id == newId) = false) :
    ((FileStorage.addTodo s d newId now .success).1 = .error .validation ↔
        titleInvalid d.title = true) ∧
    ((SqliteFileStorage.addTodo q d newId now).1 = .error .validation ↔
        titleInvalid d.title = true) ∧
    (titleInvalid d.title = false →
      (FileStorage.addTodo s d newId now .success).1 = .ok (mkTodo d newId now) ∧
      (FileStorage.addTodo s d newId now .success).2.mem.map = s.mem.map ++ [mkTodo d newId now] ∧
      (SqliteFileStorage.addTodo q d newId now).1 = .ok (mkTodo d newId now) ∧
      (SqliteFileStorage.addTodo q d newId now).2.rows = q.rows ++ [rowOf (mkTodo d newId now)] ∧
      (mkTodo d newId now).id = newId ∧
      (mkTodo d newId now).title = d.title.getD [] ∧
      (mkTodo d newId now).description = d.description.getD [] ∧
      (mkTodo d newId now).done = d.done ∧
      (mkTodo d newId now).createdAt = now ∧
      (mkTodo d newId now).updatedAt = now) ∧
    (titleInvalid d.title = true →
      (FileStorage.addTodo s d newId now .success).2.mem.map = s.mem.map ∧
      (SqliteFileStorage.addTodo q d newId now).2.rows = q.rows) := by
  have happend : mapSet s.mem.map (mkTodo d newId now) = s.mem.map ++ [mkTodo d newId now] :=
    mapSet_append _ _ hfrF
  by_cases hbad : titleInvalid d.title = true
  · refine ⟨?_, ?_, ?_, ?_⟩
    · rw [fileAdd_invalid s d newId now .success hin hbad]
      simp [hbad]
    · rw [sqlAdd_invalid q d newId now hq hbad]
      simp [hbad]
    · intro h
      rw [h] at hbad
      exact absurd hbad (by simp)
    · intro _
      rw [fileAdd_invalid s d newId now .success hin hbad,
        sqlAdd_invalid q d newId now hq hbad]
      exact ⟨rfl, rfl⟩
  · have hok : titleInvalid d.title = false := by simpa using hbad
    have hfile : (FileStorage.addTodo s d newId now .success).1 = .ok (mkTodo d newId now) ∧
        (FileStorage.addTodo s d newId now .success).2.mem.map =
          s.mem.map ++ [mkTodo d newId now] := by
      cases hm : s.mem.mode with
      | onClose =>
        rw [fileAdd_onClose s d newId now .success hin hok hm]
        exact ⟨rfl, happend⟩
      | immediate =>
        rw [fileAdd_immediate_ok s d newId now hin hok hm]
        exact ⟨rfl, happend⟩
    refine ⟨?_, ?_, ?_, ?_⟩
    · rw [hfile.1]
      simp [hok]
    · rw [sqlAdd_ok q d newId now hq hok hfrQ]
      simp [hok]
    · intro _
      refine ⟨hfile.1, hfile.2, ?_, ?_, rfl, rfl, rfl, rfl, rfl, rfl⟩
      · rw [sqlAdd_ok q d newId now hq hok hfrQ]
      · rw [sqlAdd_ok q d newId now hq hok hfrQ]
    · intro h
      rw [h] at hok
      exact absurd hok (by simp)

/-- Witness for C5: on a one-record store, a blank title is rejected by both
backends, and a valid title is accepted, returning the freshly built record. -/
theorem C5_add_validation_witness :
    ((FileStorage.addTodo
        { mem := { inited := true, dirty := false,
                   map := [{ id := ['i'], title := ['a'], description := [], done := false,
                             createdAt := ['s'], updatedAt := ['s'] }], mode := Mode.onClose },
          disk := { target := none, tmp := false } }
        { title := some [' '], description := none, done := false } ['j'] ['t'] .success).1 =
      .error .validation ↔ titleInvalid (some [' ']) = true) ∧
    ((FileStorage.addTodo
        { mem := { inited := true, dirty := false,
                   map := [{ id := ['i'], title := ['a'], description := [], done := false,
                             createdAt := ['s'], updatedAt := ['s'] }], mode := Mode.onClose },
          disk := { target := none, tmp := false } }
        { title := some ['b'], description := none, done := true } ['j'] ['t'] .success).1 =
      .ok (mkTodo { title := some ['b'], description := none, done := true } ['j'] ['t'])) := by
  constructor
  · exact (C5_add_validation
      { mem := { inited := true, dirty := false,
                 map := [{ id := ['i'], title := ['a'], description := [], done := false,
                           createdAt := ['s'], updatedAt := ['s'] }], mode := Mode.onClose },
        disk := { target := none, tmp := false } }
      { inited := true, rows := [] }
      { title := some [' '], description := none, done := false } ['j'] ['t']
      (by decide) (by decide) (by decide) (by decide)).1
  · exact ((C5_add_validation
      { mem := { inited := true, dirty := false,
                 map := [{ id := ['i'], title := ['a'], description := [], done := false,
                           createdAt := ['s'], updatedAt := ['s'] }], mode := Mode.onClose },
        disk := { target := none, tmp := false } }
      { inited := true, rows := [] }
      { title := some ['b'], description := none, done := true } ['j'] ['t']
      (by decide) (by decide) (by decide) (by decide)).2.2.1 (by decide)).1

/-- C6: listing and pagination on both backends.  `getAllTodos` with no
limit returns the full store ordered by ascending `createdAt` (sorted, and
a permutation of the stored records); with a limit `L` and offset `O`
within bounds it returns exactly the slice `[O, O+L)` of that full ordered
list. -/
theorem C6_pagination (s : FileSt) (q : SqlSt) (L O : Nat)
    (hin : s.mem.inited = true) (hq : q.inited = true)
    (_hbF : O + L ≤ (sortByCreated s.mem.map).length)
    (_hbQ : O + L ≤ (sortRows q.rows).length) :
    ((FileStorage.getAllTodos s none 0).1 = .ok (sortByCreated s.mem.map) ∧
      List.Sorted todoLe (sortByCreated s.mem.map) ∧
      (sortByCreated s.mem.map).Perm s.mem.map ∧
      (FileStorage.getAllTodos s (some L) O).1 =
        .ok (((sortByCreated s.mem.map).drop O).take L)) ∧
    ((SqliteFileStorage.getAllTodos q none 0).1 = .ok ((sortRows q.rows).map rowToTodo) ∧
      List.Sorted todoLe ((sortRows q.rows).map rowToTodo) ∧
      ((sortRows q.rows).map rowToTodo).Perm (q.rows.map rowToTodo) ∧
      (SqliteFileStorage.getAllTodos q (some L) O).1 =
        .ok ((((sortRows q.rows).map rowToTodo).drop O).take L)) := by
  constructor
  · refine ⟨?_, List.sorted_insertionSort todoLe s.mem.map,
      List.perm_insertionSort todoLe s.mem.map, ?_⟩
    · rw [fileGetAll s none 0 hin]
    · rw [fileGetAll s (some L) O hin]
  · refine ⟨?_, ?_, ?_, ?_⟩
    · rw [sqlGetAll q none 0 hq]
    · exact List.Pairwise.map rowToTodo (fun _ _ h => h)
        (List.sorted_insertionSort rowLe q.rows)
    · exact List.Perm.map rowToTodo (List.perm_insertionSort rowLe q.rows)
    · rw [sqlGetAll q (some L) O hq]
      rw [← List.map_drop, ← List.map_take]

/-- Witness for C6: a three-record store on each backend, listed with
limit 2 and offset 1, returns the middle slice of the ascending list. -/
theorem C6_pagination_witness :
    ((FileStorage.getAllTodos
        { mem := { inited := true, dirty := false,
                   map := [{ id := ['b'], title := ['y'], description := [], done := false,
                             createdAt := ['2'], updatedAt := ['2'] },
                           { id := ['a'], title := ['x'], description := [], done := false,
                             createdAt := ['1'], updatedAt := ['1'] },
                           { id := ['c'], title := ['z'], description := [], done := true,
                             createdAt := ['3'], updatedAt := ['3'] }], mode := Mode.onClose },
          disk := { target := none, tmp := false } } (some 2) 1).1 =
      .ok [{ id := ['b'], title := ['y'], description := [], done := false,
             createdAt := ['2'], updatedAt := ['2'] },
           { id := ['c'], title := ['z'], description := [], done := true,
             createdAt := ['3'], updatedAt := ['3'] }]) := by
  have h := ((C6_pagination
    { mem := { inited := true, dirty := false,
               map := [{ id := ['b'], title := ['y'], description := [], done := false,
                         createdAt := ['2'], updatedAt := ['2'] },
                       { id := ['a'], title := ['x'], description := [], done := false,
                         createdAt := ['1'], updatedAt := ['1'] },
                       { id := ['c'], title := ['z'], description := [], done := true,
                         createdAt := ['3'], updatedAt := ['3'] }], mode := Mode.onClose },
      disk := { target := none, tmp := false } }
    { inited := true,
      rows := [{ id := ['a'], title := ['x'], description := [], done := 0,
                 created_at := ['1'], updated_at := ['1'] },
               { id := ['b'], title := ['y'], description := [], done := 0,
                 created_at := ['2'], updated_at := ['2'] },
               { id := ['c'], title := ['z'], description := [], done := 1,
                 created_at := ['3'], updated_at := ['3'] }] } 2 1
    (by decide) (by decide) (by decide) (by decide)).1).2.2.2
  rw [h]
  exact congrArg Except.ok (by decide)

/-- C7: not-found sentinels on both backends.  For an absent id,
`getTodoById` returns the null sentinel, `updateTodo` returns the null
sentinel, and `deleteTodo` returns false, none of them raising an error,
and the absent-id delete leaves the store contents unchanged.  `deleteTodo`
returns true exactly when the id was present, after which `getTodoById` on
that id yields the sentinel. -/
theorem C7_not_found_sentinels (s : FileSt) (q : SqlSt) (i : Str) (p : Patch) (pnow : Str)
    (hin : s.mem.inited = true) (hq : q.inited = true) :
    (mapHas s.mem.map i = false →
      (FileStorage.getTodoById s i).1 = .ok none ∧
      (FileStorage.updateTodo s i p pnow .success).1 = .ok none ∧
      (FileStorage.deleteTodo s i .success).1 = .ok false ∧
      (FileStorage.deleteTodo s i .success).2.mem.map = s.mem.map) ∧
    (mapHas s.mem.map i = true →
      (FileStorage.deleteTodo s i .success).1 = .ok true ∧
      (FileStorage.getTodoById (FileStorage.deleteTodo s i .success).2 i).1 = .ok none) ∧
    (q.rows.any (fun r => r.id == i) = false →
      (SqliteFileStorage.getTodoById q i).1 = .ok none ∧
      (SqliteFileStorage.updateTodo q i p pnow).1 = .ok none ∧
      (SqliteFileStorage.deleteTodo q i).1 = .ok false ∧
      (SqliteFileStorage.deleteTodo q i).2.rows = q.rows) ∧
    (q.rows.any (fun r => r.id == i) = true →
      (SqliteFileStorage.deleteTodo q i).1 = .ok true ∧
      (SqliteFileStorage.getTodoById (SqliteFileStorage.deleteTodo q i).2 i).1 = .ok none) := by
  refine ⟨?_, ?_, ?_, ?_⟩
  · intro habs
    have hget : mapGet s.mem.map i = none := mapGet_none_of_has_false s.mem.map i habs
    refine ⟨?_, ?_, ?_, ?_⟩
    · rw [fileGetById s i hin, hget]
    · rw [fileUpdate_absent s i p pnow .success hin hget]
    · rw [fileDelete_absent s i .success hin habs]
    · rw [fileDelete_absent s i .success hin habs]
  · intro hpres
    have hfacet : (FileStorage.deleteTodo s i .success).1 = .ok true ∧
        (FileStorage.deleteTodo s i .success).2.mem.map = mapDelete s.mem.map i ∧
        (FileStorage.deleteTodo s i .success).2.mem.inited = true := by
      cases hm : s.mem.mode with
      | onClose =>
        rw [fileDelete_onClose s i .success hin hpres hm]
        exact ⟨rfl, rfl, hin⟩
      | immediate =>
        rw [fileDelete_immediate_ok s i hin hpres hm]
        exact ⟨rfl, rfl, hin⟩
    refine ⟨hfacet.1, ?_⟩
    rw [fileGetById _ i hfacet.2.2, hfacet.2.1, mapGet_mapDelete]
  · intro habs
    have hfind : q.rows.find? (fun r => r.id == i) = none :=
      find?_none_of_any_false q.rows _ habs
    refine ⟨?_, ?_, ?_, ?_⟩
    · rw [sqlGetById q i hq, hfind]
      rfl
    · rw [sqlUpdate_absent q i p pnow hq hfind]
    · rw [sqlDelete q i hq, habs]
    · rw [sqlDelete q i hq]
      exact filter_id_of_any_false q.rows _ habs
  · intro hpres
    have hdel := sqlDelete q i hq
    refine ⟨?_, ?_⟩
    · rw [hdel, hpres]
    · have hrows : (SqliteFileStorage.deleteTodo q i).2.rows =
          q.rows.filter (fun r => !(r.id == i)) := by rw [hdel]
      have hinited : (SqliteFileStorage.deleteTodo q i).2.inited = true := by
        rw [hdel]
        exact hq
      rw [sqlGetById _ i hinited, hrows, find?_filter_not]
      rfl

/-- Witness for C7: a one-record store on each backend; the id `['z']` is
absent and yields the sentinels with unchanged contents, and deleting the
present id `['i']` returns true after which it can no longer be fetched. -/
theorem C7_not_found_sentinels_witness :
    ((FileStorage.getTodoById
        { mem := { inited := true, dirty := false,
                   map := [{ id := ['i'], title := ['a'], description := [], done := false,
                             createdAt := ['s'], updatedAt := ['s'] }], mode := Mode.onClose },
          disk := { target := none, tmp := false } } ['z']).1 = .ok none) ∧
    ((FileStorage.deleteTodo
        { mem := { inited := true, dirty := false,
                   map := [{ id := ['i'], title := ['a'], description := [], done := false,
                             createdAt := ['s'], updatedAt := ['s'] }], mode := Mode.onClose },
          disk := { target := none, tmp := false } } ['i'] .success).1 = .ok true) ∧
    ((SqliteFileStorage.deleteTodo
        { inited := true,
          rows := [{ id := ['i'], title := ['a'], description := [], done := 0,
                     created_at := ['s'], updated_at := ['s'] }] } ['z']).1 = .ok false) := by
  have h := C7_not_found_sentinels
    { mem := { inited := true, dirty := false,
               map := [{ id := ['i'], title := ['a'], description := [], done := false,
                         createdAt := ['s'], updatedAt := ['s'] }], mode := Mode.onClose },
      disk := { target := none, tmp := false } }
    { inited := true,
      rows := [{ id := ['i'], title := ['a'], description := [], done := 0,
                 created_at := ['s'], updated_at := ['s'] }] }
    ['z'] { title := none, description := none, done := none } ['u']
    (by decide) (by decide)
  have h2 := C7_not_found_sentinels
    { mem := { inited := true, dirty := false,
               map := [{ id := ['i'], title := ['a'], description := [], done := false,
                         createdAt := ['s'], updatedAt := ['s'] }], mode := Mode.onClose },
      disk := { target := none, tmp := false } }
    { inited := true,
      rows := [{ id := ['i'], title := ['a'], description := [], done := 0,
                 created_at := ['s'], updated_at := ['s'] }] }
    ['i'] { title := none, description := none, done := none } ['u']
    (by decide) (by decide)
  exact ⟨(h.1 (by decide)).1, (h2.2.1 (by decide)).1, (h.2.2.1 (by decide)).2.2.1⟩

/-- C10: in the File Backend's immediate durability mode, when the physical
write raised by a mutating operation fails, the medium error propagates to
the caller but the in-memory mutation is not rolled back: the map holds the
mutated contents, the dirty flag stays set, the previously persisted target
file is untouched, and a subsequent `getTodoById` on the same instance
observes the mutation whose persistence failed. -/
theorem C10_failed_write_keeps_mutation (s : FileSt) (d : TodoData) (newId now i : Str)
    (p : Patch) (pnow : Str) (ex : Todo) (w : WOutcome)
    (hin : s.mem.inited = true) (hm : s.mem.mode = Mode.immediate)
    (hw : wFails w = true) (hok : titleInvalid d.title = false)
    (hex : mapGet s.mem.map i = some ex) :
    ((FileStorage.addTodo s d newId now w).1 = .error .medium ∧
      (FileStorage.addTodo s d newId now w).2.mem.map = mapSet s.mem.map (mkTodo d newId now) ∧
      (FileStorage.addTodo s d newId now w).2.mem.dirty = true ∧
      (FileStorage.addTodo s d newId now w).2.disk.target = s.disk.target ∧
      (FileStorage.getTodoById (FileStorage.addTodo s d newId now w).2 newId).1 =
        .ok (some (mkTodo d newId now))) ∧
    ((FileStorage.updateTodo s i p pnow w).1 = .error .medium ∧
      (FileStorage.updateTodo s i p pnow w).2.mem.map = mapSet s.mem.map (mergePatch ex p pnow) ∧
      (FileStorage.updateTodo s i p pnow w).2.mem.dirty = true ∧
      (FileStorage.updateTodo s i p pnow w).2.disk.target = s.disk.target ∧
      (FileStorage.getTodoById (FileStorage.updateTodo s i p pnow w).2 i).1 =
        .ok (some (mergePatch ex p pnow))) ∧
    ((FileStorage.deleteTodo s i w).1 = .error .medium ∧
      (FileStorage.deleteTodo s i w).2.mem.map = mapDelete s.mem.map i ∧
      (FileStorage.deleteTodo s i w).2.mem.dirty = true ∧
      (FileStorage.deleteTodo s i w).2.disk.target = s.disk.target ∧
      (FileStorage.getTodoById (FileStorage.deleteTodo s i w).2 i).1 = .ok none) := by
  have hexid : ex.id = i := by
    have hp := List.find?_some hex
    simpa using hp
  have hpres : mapHas s.mem.map i = true := mapHas_of_mapGet s.mem.map i ex hex
  refine ⟨?_, ?_, ?_⟩
  · rw [fileAdd_immediate_fail s d newId now w hin hok hm hw]
    refine ⟨rfl, rfl, rfl, rfl, ?_⟩
    rw [fileGetById
      { mem := { s.mem with map := mapSet s.mem.map (mkTodo d newId now), dirty := true },
        disk := { target := s.disk.target, tmp := !(rmOf w) } } newId hin]
    exact congrArg Except.ok (mapGet_mapSet_self s.mem.map (mkTodo d newId now))
  · rw [fileUpdate_immediate_fail s i p pnow w ex hin hex hm hw]
    refine ⟨rfl, rfl, rfl, rfl, ?_⟩
    rw [fileGetById
      { mem := { s.mem with map := mapSet s.mem.map (mergePatch ex p pnow), dirty := true },
        disk := { target := s.disk.target, tmp := !(rmOf w) } } i hin]
    have hid : (mergePatch ex p pnow).id = i := hexid
    rw [← hid]
    exact congrArg Except.ok (mapGet_mapSet_self s.mem.map (mergePatch ex p pnow))
  · rw [fileDelete_immediate_fail s i w hin hpres hm hw]
    refine ⟨rfl, rfl, rfl, rfl, ?_⟩
    rw [fileGetById
      { mem := { s.mem with map := mapDelete s.mem.map i, dirty := true },
        disk := { target := s.disk.target, tmp := !(rmOf w) } } i hin]
    exact congrArg Except.ok (mapGet_mapDelete s.mem.map i)

/-- Witness for C10: immediate mode on a one-record store with a failing
rename; `addTodo` reports the medium error, yet the new record is readable
from memory afterwards. -/
theorem C10_failed_write_keeps_mutation_witness :
    ((FileStorage.addTodo
        { mem := { inited := true, dirty := false,
                   map := [{ id := ['i'], title := ['a'], description := [], done := false,
                             createdAt := ['s'], updatedAt := ['s'] }], mode := Mode.immediate },
          disk := { target := some [{ id := ['i'], title := ['a'], description := [], done := false,
                                      createdAt := ['s'], updatedAt := ['s'] }], tmp := false } }
        { title := some ['b'], description := none, done := false } ['j'] ['t']
        (.renameFail true)).1 = .error .medium) ∧
    ((FileStorage.getTodoById
        (FileStorage.addTodo
          { mem := { inited := true, dirty := false,
                     map := [{ id := ['i'], title := ['a'], description := [], done := false,
                               createdAt := ['s'], updatedAt := ['s'] }], mode := Mode.immediate },
            disk := { target := some [{ id := ['i'], title := ['a'], description := [], done := false,
                                        createdAt := ['s'], updatedAt := ['s'] }], tmp := false } }
          { title := some ['b'], description := none, done := false } ['j'] ['t']
          (.renameFail true)).2 ['j']).1 =
      .ok (some (mkTodo { title := some ['b'], description := none, done := false } ['j'] ['t']))) := by
  have hC10 := (C10_failed_write_keeps_mutation
    { mem := { inited := true, dirty := false,
               map := [{ id := ['i'], title := ['a'], description := [], done := false,
                         createdAt := ['s'], updatedAt := ['s'] }], mode := Mode.immediate },
      disk := { target := some [{ id := ['i'], title := ['a'], description := [], done := false,
                                  createdAt := ['s'], updatedAt := ['s'] }], tmp := false } }
    { title := some ['b'], description := none, done := false } ['j'] ['t'] ['i']
    { title := none, description := none, done := none } ['u']
    { id := ['i'], title := ['a'], description := [], done := false,
      createdAt := ['s'], updatedAt := ['s'] }
    (.renameFail true)
    (by decide) (by decide) (by decide) (by decide) (by decide)).1
  exact ⟨hC10.1, hC10.2.2.2.2⟩

theorem sqlAdd_dup (q : SqlSt) (d : TodoData) (newId now : Str)
    (h : q.inited = true) (hok : titleInvalid d.title = false)
    (hdup : q.rows.any (fun r => r.id == newId) = true) :
    SqliteFileStorage.addTodo q d newId now = (.error .constraint, q) := by
  have hid : (mkTodo d newId now).id = newId := rfl
  simp [SqliteFileStorage.addTodo, h, hok, hid, hdup]

theorem titlesOk_mem (l : List Todo) (t : Todo) (hok : titlesOk l = true) (ht : t ∈ l) :
    strBlank t.title = false := by
  unfold titlesOk at hok
  rw [List.all_eq_true] at hok
  simpa using hok t ht

theorem titlesOk_of_forall (l : List Todo) (h : ∀ t ∈ l, strBlank t.title = false) :
    titlesOk l = true := by
  unfold titlesOk
  rw [List.all_eq_true]
  intro t ht
  simpa using h t ht

theorem titlesOk_mapSet (m : List Todo) (t : Todo) (hm : titlesOk m = true)
    (ht : strBlank t.title = false) : titlesOk (mapSet m t) = true := by
  apply titlesOk_of_forall
  intro x hx
  unfold mapSet at hx
  by_cases h : mapHas m t.id = true
  · rw [if_pos h] at hx
    obtain ⟨y, hy, hxy⟩ := List.mem_map.mp hx
    by_cases hyy : (y.id == t.id) = true
    · rw [if_pos hyy] at hxy
      rw [← hxy]
      exact ht
    · rw [if_neg hyy] at hxy
      rw [← hxy]
      exact titlesOk_mem m y hm hy
  · rw [if_neg h] at hx
    rcases List.mem_append.mp hx with hx' | hx'
    · exact titlesOk_mem m x hm hx'
    · rw [List.mem_singleton] at hx'
      rw [hx']
      exact ht

theorem titlesOk_mapDelete (m : List Todo) (i : Str) (hm : titlesOk m = true) :
    titlesOk (mapDelete m i) = true := by
  apply titlesOk_of_forall
  intro x hx
  exact titlesOk_mem m x hm (List.mem_filter.mp hx).1

theorem title_of_valid (d : TodoData) (newId now : Str) (h : titleInvalid d.title = false) :
    strBlank (mkTodo d newId now).title = false := by
  cases hd : d.title with
  | none =>
    rw [hd] at h
    simp [titleInvalid] at h
  | some ts =>
    have hgoal : (mkTodo d newId now).title = d.title.getD [] := rfl
    rw [hgoal, hd]
    rw [hd] at h
    simp only [titleInvalid] at h
    simpa using h

theorem titlesOk_stepFile (s : FileSt) (op : Op)
    (hin : s.mem.inited = true) (hok : titlesOk s.mem.map = true)
    (hp : opPatchOk op = true) (hmut : isMut op = true) :
    (stepFile s op).2.mem.inited = true ∧ titlesOk (stepFile s op).2.mem.map = true := by
  cases op with
  | opInit => exact absurd hmut (by simp [isMut])
  | opClose => exact absurd hmut (by simp [isMut])
  | opGetAll limit offset => exact absurd hmut (by simp [isMut])
  | opGetById i => exact absurd hmut (by simp [isMut])
  | opAdd d newId now =>
    by_cases hbad : titleInvalid d.title = true
    · have hf : stepFile s (Op.opAdd d newId now) = (Obs.oerr .validation, s) := by
        simp [stepFile, fileAdd_invalid s d newId now .success hin hbad, obsTodo]
      rw [hf]
      exact ⟨hin, hok⟩
    · have hvalid : titleInvalid d.title = false := by simpa using hbad
      have hset := titlesOk_mapSet s.mem.map (mkTodo d newId now) hok
        (title_of_valid d newId now hvalid)
      cases hm : s.mem.mode with
      | onClose =>
        have hf := fileAdd_onClose s d newId now .success hin hvalid hm
        simp only [stepFile, hf]
        exact ⟨hin, hset⟩
      | immediate =>
        have hf := fileAdd_immediate_ok s d newId now hin hvalid hm
        simp only [stepFile, hf]
        exact ⟨hin, hset⟩
  | opUpdate i p now =>
    cases hget : mapGet s.mem.map i with
    | none =>
      have hf : stepFile s (Op.opUpdate i p now) = (Obs.oopt none, s) := by
        simp [stepFile, fileUpdate_absent s i p now .success hin hget, obsOpt]
      rw [hf]
      exact ⟨hin, hok⟩
    | some ex =>
      have hexmem : ex ∈ s.mem.map := List.mem_of_find?_eq_some hget
      have hextitle : strBlank ex.title = false := titlesOk_mem s.mem.map ex hok hexmem
      have hmerged : strBlank (mergePatch ex p now).title = false := by
        cases hpt : p.title with
        | none => simpa [mergePatch, hpt] using hextitle
        | some t' =>
          have : strBlank t' = false := by simpa [opPatchOk, hpt] using hp
          simpa [mergePatch, hpt] using this
      have hset := titlesOk_mapSet s.mem.map (mergePatch ex p now) hok hmerged
      cases hm : s.mem.mode with
      | onClose =>
        have hf := fileUpdate_onClose s i p now .success ex hin hget hm
        simp only [stepFile, hf]
        exact ⟨hin, hset⟩
      | immediate =>
        have hf := fileUpdate_immediate_ok s i p now ex hin hget hm
        simp only [stepFile, hf]
        exact ⟨hin, hset⟩
  | opDelete i =>
    cases hhas : mapHas s.mem.map i with
    | false =>
      have hf : stepFile s (Op.opDelete i) = (Obs.obool false, s) := by
        simp [stepFile, fileDelete_absent s i .success hin hhas, obsBool]
      rw [hf]
      exact ⟨hin, hok⟩
    | true =>
      have hdel := titlesOk_mapDelete s.mem.map i hok
      cases hm : s.mem.mode with
      | onClose =>
        have hf := fileDelete_onClose s i .success hin hhas hm
        simp only [stepFile, hf]
        exact ⟨hin, hdel⟩
      | immediate =>
        have hf := fileDelete_immediate_ok s i hin hhas hm
        simp only [stepFile, hf]
        exact ⟨hin, hdel⟩

theorem titlesOk_runFile : ∀ (ops : List Op) (s : FileSt),
    s.mem.inited = true → titlesOk s.mem.map = true →
    mutOnly ops = true → patchesOk ops = true →
    (runFileSt s ops).mem.inited = true ∧ titlesOk (runFileSt s ops).mem.map = true
  | [], s, hin, hok, _, _ => ⟨hin, hok⟩
  | op :: rest, s, hin, hok, hmut, hp => by
    rw [mutOnly, Bool.and_eq_true] at hmut
    rw [patchesOk, Bool.and_eq_true] at hp
    have hstep := titlesOk_stepFile s op hin hok hp.1 hmut.1
    exact titlesOk_runFile rest (stepFile s op).2 hstep.1 hstep.2 hmut.2 hp.2

theorem rowTitlesOk_mem (l : List Row) (r : Row) (hok : rowTitlesOk l = true) (hr : r ∈ l) :
    strBlank r.title = false := by
  unfold rowTitlesOk at hok
  rw [List.all_eq_true] at hok
  simpa using hok r hr

theorem rowTitlesOk_of_forall (l : List Row) (h : ∀ r ∈ l, strBlank r.title = false) :
    rowTitlesOk l = true := by
  unfold rowTitlesOk
  rw [List.all_eq_true]
  intro r hr
  simpa using h r hr

theorem rowTitlesOk_stepSql (q : SqlSt) (op : Op)
    (hq : q.inited = true) (hok : rowTitlesOk q.rows = true)
    (hp : opPatchOk op = true) (hmut : isMut op = true) :
    (stepSql q op).2.inited = true ∧ rowTitlesOk (stepSql q op).2.rows = true := by
  cases op with
  | opInit => exact absurd hmut (by simp [isMut])
  | opClose => exact absurd hmut (by simp [isMut])
  | opGetAll limit offset => exact absurd hmut (by simp [isMut])
  | opGetById i => exact absurd hmut (by simp [isMut])
  | opAdd d newId now =>
    by_cases hbad : titleInvalid d.title = true
    · have hf : stepSql q (Op.opAdd d newId now) = (Obs.oerr .validation, q) := by
        simp [stepSql, sqlAdd_invalid q d newId now hq hbad, obsTodo]
      rw [hf]
      exact ⟨hq, hok⟩
    · have hvalid : titleInvalid d.title = false := by simpa using hbad
      cases hdup : q.rows.any (fun r => r.id == newId) with
      | true =>
        have hf : stepSql q (Op.opAdd d newId now) = (Obs.oerr .constraint, q) := by
          simp [stepSql, sqlAdd_dup q d newId now hq hvalid hdup, obsTodo]
        rw [hf]
        exact ⟨hq, hok⟩
      | false =>
        have hf := sqlAdd_ok q d newId now hq hvalid hdup
        simp only [stepSql, hf]
        refine ⟨hq, rowTitlesOk_of_forall _ ?_⟩
        intro r hr
        rcases List.mem_append.mp hr with hr' | hr'
        · exact rowTitlesOk_mem q.rows r hok hr'
        · rw [List.mem_singleton] at hr'
          rw [hr']
          exact title_of_valid d newId now hvalid
  | opUpdate i p now =>
    cases hfind : q.rows.find? (fun r => r.id == i) with
    | none =>
      have hf : stepSql q (Op.opUpdate i p now) = (Obs.oopt none, q) := by
        simp [stepSql, sqlUpdate_absent q i p now hq hfind, obsOpt]
      rw [hf]
      exact ⟨hq, hok⟩
    | some r0 =>
      have hr0mem : r0 ∈ q.rows := List.mem_of_find?_eq_some hfind
      have hr0t : strBlank r0.title = false := rowTitlesOk_mem q.rows r0 hok hr0mem
      have hmerged : strBlank (mergePatch (rowToTodo r0) p now).title = false := by
        cases hpt : p.title with
        | none => simpa [mergePatch, hpt, rowToTodo] using hr0t
        | some t' =>
          have : strBlank t' = false := by simpa [opPatchOk, hpt] using hp
          simpa [mergePatch, hpt] using this
      have hf := sqlUpdate_present q i p now r0 hq hfind
      simp only [stepSql, hf]
      refine ⟨hq, rowTitlesOk_of_forall _ ?_⟩
      intro r hr
      obtain ⟨y, hy, hxy⟩ := List.mem_map.mp hr
      by_cases hyy : (y.id == i) = true
      · rw [if_pos hyy] at hxy
        rw [← hxy]
        exact hmerged
      · rw [if_neg hyy] at hxy
        rw [← hxy]
        exact rowTitlesOk_mem q.rows y hok hy
  | opDelete i =>
    have hf := sqlDelete q i hq
    simp only [stepSql, hf]
    refine ⟨hq, rowTitlesOk_of_forall _ ?_⟩
    intro r hr
    exact rowTitlesOk_mem q.rows r hok (List.mem_filter.mp hr).1

theorem rowTitlesOk_runSql : ∀ (ops : List Op) (q : SqlSt),
    q.inited = true → rowTitlesOk q.rows = true →
    mutOnly ops = true → patchesOk ops = true →
    (runSqlSt q ops).inited = true ∧ rowTitlesOk (runSqlSt q ops).rows = true
  | [], q, hq, hok, _, _ => ⟨hq, hok⟩
  | op :: rest, q, hq, hok, hmut, hp => by
    rw [mutOnly, Bool.and_eq_true] at hmut
    rw [patchesOk, Bool.and_eq_true] at hp
    have hstep := rowTitlesOk_stepSql q op hq hok hp.1 hmut.1
    exact rowTitlesOk_runSql rest (stepSql q op).2 hstep.1 hstep.2 hmut.2 hp.2

theorem titlesOk_perm (l l' : List Todo) (h : l.Perm l') (hok : titlesOk l = true) :
    titlesOk l' = true := by
  apply titlesOk_of_forall
  intro t ht
  exact titlesOk_mem l t hok (h.mem_iff.mpr ht)

/-- C2 counterexample: the claim is false as stated.  From an initialized
empty File Backend, the interleaving addTodo (valid title) then updateTodo
with a whitespace-only title patch reaches a state in which `getAllTodos`
returns a record whose title is whitespace-only: `updateTodo` performs no
title validation. -/
theorem C2_counterexample :
    sortByCreated (runFileSt
        { mem := { inited := true, dirty := true, map := [], mode := Mode.onClose },
          disk := { target := none, tmp := false } }
        [Op.opAdd { title := some ['a'], description := none, done := false } ['i'] ['t'],
         Op.opUpdate ['i'] { title := some [' '], description := none, done := none } ['u']]).mem.map =
      [{ id := ['i'], title := [' '], description := [], done := false,
         createdAt := ['t'], updatedAt := ['u'] }] ∧
    strBlank [' '] = true ∧
    (FileStorage.getAllTodos (runFileSt
        { mem := { inited := true, dirty := true, map := [], mode := Mode.onClose },
          disk := { target := none, tmp := false } }
        [Op.opAdd { title := some ['a'], description := none, done := false } ['i'] ['t'],
         Op.opUpdate ['i'] { title := some [' '], description := none, done := none } ['u']])
      none 0).1 =
      .ok [{ id := ['i'], title := [' '], description := [], done := false,
             createdAt := ['t'], updatedAt := ['u'] }] :=
  ⟨by decide, by decide, rfl⟩

/-- C2 (amended): for every store state reachable from an initialized store
whose titles are all non-blank, by any interleaving of addTodo, updateTodo
and deleteTodo in which every update patch that supplies a title supplies a
non-blank one, every record returned by `getAllTodos` has a non-blank title,
on both backends.  As stated the claim is false (see the counterexample):
`updateTodo` performs no title validation, so an update patch carrying an
empty or whitespace-only string title does leave a live record with a blank
title; `addTodo` alone can never create one. -/
theorem C2_title_invariant (s : FileSt) (q : SqlSt) (ops : List Op)
    (hin : s.mem.inited = true) (hq : q.inited = true)
    (hokF : titlesOk s.mem.map = true) (hokQ : rowTitlesOk q.rows = true)
    (hmut : mutOnly ops = true) (hp : patchesOk ops = true) :
    (FileStorage.getAllTodos (runFileSt s ops) none 0).1 =
        .ok (sortByCreated (runFileSt s ops).mem.map) ∧
      titlesOk (sortByCreated (runFileSt s ops).mem.map) = true ∧
      (SqliteFileStorage.getAllTodos (runSqlSt q ops) none 0).1 =
        .ok ((sortRows (runSqlSt q ops).rows).map rowToTodo) ∧
      titlesOk ((sortRows (runSqlSt q ops).rows).map rowToTodo) = true := by
  have hF := titlesOk_runFile ops s hin hokF hmut hp
  have hQ := rowTitlesOk_runSql ops q hq hokQ hmut hp
  refine ⟨?_, ?_, ?_, ?_⟩
  · rw [fileGetAll _ none 0 hF.1]
  · exact titlesOk_perm _ _ (List.perm_insertionSort todoLe _).symm hF.2
  · rw [sqlGetAll _ none 0 hQ.1]
  · apply titlesOk_of_forall
    intro t ht
    obtain ⟨r, hr, rfl⟩ := List.mem_map.mp ht
    have hrmem : r ∈ (runSqlSt q ops).rows :=
      (List.perm_insertionSort rowLe _).mem_iff.mp hr
    exact rowTitlesOk_mem _ r hQ.2 hrmem

/-- Witness for C2 (amended): an initialized empty store on each backend, a
trace of one add and one update whose patch title is non-blank; the final
listings contain only non-blank titles. -/
theorem C2_title_invariant_witness :
    titlesOk (sortByCreated (runFileSt
        { mem := { inited := true, dirty := true, map := [], mode := Mode.onClose },
          disk := { target := none, tmp := false } }
        [Op.opAdd { title := some ['a'], description := none, done := false } ['i'] ['t'],
         Op.opUpdate ['i'] { title := some ['b'], description := none, done := some true } ['u'],
         Op.opDelete ['z']]).mem.map) = true :=
  (C2_title_invariant
    { mem := { inited := true, dirty := true, map := [], mode := Mode.onClose },
      disk := { target := none, tmp := false } }
    { inited := true, rows := [] }
    [Op.opAdd { title := some ['a'], description := none, done := false } ['i'] ['t'],
     Op.opUpdate ['i'] { title := some ['b'], description := none, done := some true } ['u'],
     Op.opDelete ['z']]
    (by decide) (by decide) (by decide) (by decide) (by decide) (by decide)).2.1

/-! ### Round-trip lemmas (C8) -/

theorem mapHas_false_of_not_mem (m : List Todo) (i : Str) (h : i ∉ idsOf m) :
    mapHas m i = false := by
  cases hc : mapHas m i with
  | false => rfl
  | true =>
    exfalso
    unfold mapHas at hc
    obtain ⟨x, hx, hp⟩ := List.any_eq_true.mp hc
    exact h (List.mem_map.mpr ⟨x, hx, by simpa using hp⟩)

theorem foldl_mapSet_nodup : ∀ (arr acc : List Todo), (idsOf (acc ++ arr)).Nodup →
    arr.foldl (fun a t => mapSet a t) acc = acc ++ arr
  | [], acc, _ => by simp
  | t :: ts, acc, h => by
    have hdisj : t.id ∉ idsOf acc := by
      unfold idsOf at h
      rw [List.map_append, List.nodup_append] at h
      intro hmem
      have hmem2 : t.id ∈ (t :: ts).map (fun x => x.id) := by simp
      exact h.2.2 hmem hmem2
    have hh : mapHas acc t.id = false := mapHas_false_of_not_mem acc t.id hdisj
    rw [List.foldl_cons]
    show List.foldl (fun a t => mapSet a t) (mapSet acc t) ts = acc ++ t :: ts
    rw [mapSet_append acc t hh]
    have h2 : (idsOf ((acc ++ [t]) ++ ts)).Nodup := by
      have : (acc ++ [t]) ++ ts = acc ++ (t :: ts) := by simp
      rw [this]
      exact h
    rw [foldl_mapSet_nodup ts (acc ++ [t]) h2]
    simp

theorem sortByCreated_idem (l : List Todo) :
    sortByCreated (sortByCreated l) = sortByCreated l :=
  List.Sorted.insertionSort_eq (List.sorted_insertionSort todoLe l)

theorem idsOf_sort_nodup (m : List Todo) (hnd : (idsOf m).Nodup) :
    (idsOf (sortByCreated m)).Nodup := by
  have hperm : (idsOf (sortByCreated m)).Perm (idsOf m) :=
    (List.perm_insertionSort todoLe m).map _
  exact (List.Perm.nodup_iff hperm).mpr hnd

theorem roundInv_add (s : FileSt) (d : TodoData) (newId now : Str)
    (hInv : roundInv s) (hval : titleInvalid d.title = false)
    (hfresh : mapHas s.mem.map newId = false) :
    roundInv (FileStorage.addTodo s d newId now .success).2 ∧
      (FileStorage.addTodo s d newId now .success).2.mem.map =
        s.mem.map ++ [mkTodo d newId now] := by
  obtain ⟨hin, hnd, _⟩ := hInv
  have happend := mapSet_append s.mem.map (mkTodo d newId now) hfresh
  have hnd' := nodup_append_fresh s.mem.map (mkTodo d newId now) hnd hfresh
  cases hm : s.mem.mode with
  | onClose =>
    rw [fileAdd_onClose s d newId now .success hin hval hm]
    refine ⟨⟨hin, ?_, Or.inr (Or.inl ⟨rfl, hm⟩)⟩, happend⟩
    show (idsOf (mapSet s.mem.map (mkTodo d newId now))).Nodup
    rw [happend]
    exact hnd'
  | immediate =>
    rw [fileAdd_immediate_ok s d newId now hin hval hm]
    refine ⟨⟨hin, ?_, Or.inl rfl⟩, happend⟩
    show (idsOf (mapSet s.mem.map (mkTodo d newId now))).Nodup
    rw [happend]
    exact hnd'

theorem roundInv_addSeq : ∀ (adds : List (TodoData × Str × Str)) (s : FileSt),
    roundInv s → addsOk s adds = true →
    roundInv (addSeq s adds) ∧
      (addSeq s adds).mem.map = s.mem.map ++ adds.map (fun x => mkTodo x.1 x.2.1 x.2.2)
  | [], s, hInv, _ => ⟨hInv, by simp [addSeq]⟩
  | x :: rest, s, hInv, hok => by
    rw [addsOk, Bool.and_eq_true, Bool.and_eq_true] at hok
    obtain ⟨⟨hval, hfresh⟩, hrest⟩ := hok
    have hval' : titleInvalid x.1.title = false := by simpa using hval
    have hfresh' : mapHas s.mem.map x.2.1 = false := by simpa using hfresh
    have hstep := roundInv_add s x.1 x.2.1 x.2.2 hInv hval' hfresh'
    have hrec := roundInv_addSeq rest _ hstep.1 hrest
    refine ⟨hrec.1, ?_⟩
    show (addSeq (FileStorage.addTodo s x.1 x.2.1 x.2.2 .success).2 rest).mem.map =
      s.mem.map ++ (x :: rest).map (fun y => mkTodo y.1 y.2.1 y.2.2)
    rw [hrec.2, hstep.2]
    simp

theorem close_after_inv (s : FileSt) (hInv : roundInv s) :
    (FileStorage.close s .success).2.mem.map = s.mem.map ∧
      ((FileStorage.close s .success).2.disk.target = some (sortByCreated s.mem.map) ∨
       ((FileStorage.close s .success).2.disk.target = none ∧ s.mem.map = [])) := by
  obtain ⟨hin, _, hdisk⟩ := hInv
  by_cases hcond : s.mem.mode = Mode.onClose ∧ s.mem.dirty = true
  · rw [fileClose_flush s hin hcond.1 hcond.2]
    exact ⟨rfl, Or.inl rfl⟩
  · rw [fileClose_noflush s .success hin hcond]
    refine ⟨rfl, ?_⟩
    rcases hdisk with h1 | h2 | h3
    · exact Or.inl h1
    · exact absurd ⟨h2.2, h2.1⟩ hcond
    · exact Or.inr ⟨h3.2.2, h3.2.1⟩

theorem fileInit_load (mode : Mode) (dk : Disk) (arr : List Todo) (htg : dk.target = some arr) :
    (FileStorage.init { mem := FileStorage.newMem mode, disk := dk }).2 =
      { mem := { inited := true, dirty := false,
                 map := arr.foldl (fun a t => mapSet a t) [], mode := mode },
        disk := dk } := by
  simp [FileStorage.init, FileStorage.newMem, htg]

theorem fileInit_missing (mode : Mode) (dk : Disk) (htg : dk.target = none) :
    (FileStorage.init { mem := FileStorage.newMem mode, disk := dk }).2 =
      { mem := { inited := true, dirty := true, map := [], mode := mode },
        disk := dk } := by
  simp [FileStorage.init, FileStorage.newMem, htg]

/-- C8: File Backend round-trip.  Adding N records (valid titles, fresh
generated ids, successful writes) to a freshly initialized File Backend,
closing it, and initializing a fresh instance against the same path yields
a store holding exactly the same N records — the same list up to the
`createdAt` ordering, hence equal field-by-field record for record. -/
theorem C8_roundtrip (mode : Mode) (adds : List (TodoData × Str × Str))
    (hok : addsOk (FileStorage.init (fileStart mode)).2 adds = true) :
    sortByCreated (FileStorage.init
        { mem := FileStorage.newMem mode,
          disk := (FileStorage.close (addSeq (FileStorage.init (fileStart mode)).2 adds)
            .success).2.disk }).2.mem.map =
      sortByCreated (addSeq (FileStorage.init (fileStart mode)).2 adds).mem.map ∧
    (FileStorage.init
        { mem := FileStorage.newMem mode,
          disk := (FileStorage.close (addSeq (FileStorage.init (fileStart mode)).2 adds)
            .success).2.disk }).2.mem.map.Perm
      (addSeq (FileStorage.init (fileStart mode)).2 adds).mem.map ∧
    (addSeq (FileStorage.init (fileStart mode)).2 adds).mem.map.length = adds.length := by
  have hs0 : (FileStorage.init (fileStart mode)).2 =
      { mem := { inited := true, dirty := true, map := [], mode := mode },
        disk := { target := none, tmp := false } } := by
    simp [FileStorage.init, fileStart, FileStorage.newMem]
  have hInv0 : roundInv (FileStorage.init (fileStart mode)).2 := by
    rw [hs0]
    exact ⟨rfl, List.nodup_nil, Or.inr (Or.inr ⟨rfl, rfl, rfl⟩)⟩
  have hadds := roundInv_addSeq adds (FileStorage.init (fileStart mode)).2 hInv0 hok
  have hlen : (addSeq (FileStorage.init (fileStart mode)).2 adds).mem.map.length = adds.length := by
    rw [hadds.2, hs0]
    simp
  have hclose := close_after_inv (addSeq (FileStorage.init (fileStart mode)).2 adds) hadds.1
  have hnd1 : (idsOf (addSeq (FileStorage.init (fileStart mode)).2 adds).mem.map).Nodup :=
    hadds.1.2.1
  rcases hclose.2 with htgt | ⟨htgt, hmapnil⟩
  · have hload := fileInit_load mode
      (FileStorage.close (addSeq (FileStorage.init (fileStart mode)).2 adds) .success).2.disk
      (sortByCreated (addSeq (FileStorage.init (fileStart mode)).2 adds).mem.map) htgt
    have hfold : (sortByCreated (addSeq (FileStorage.init (fileStart mode)).2 adds).mem.map).foldl
        (fun a t => mapSet a t) [] =
        sortByCreated (addSeq (FileStorage.init (fileStart mode)).2 adds).mem.map := by
      have := foldl_mapSet_nodup
        (sortByCreated (addSeq (FileStorage.init (fileStart mode)).2 adds).mem.map) []
        (by simpa using idsOf_sort_nodup _ hnd1)
      simpa using this
    have hmap3 : (FileStorage.init
        { mem := FileStorage.newMem mode,
          disk := (FileStorage.close (addSeq (FileStorage.init (fileStart mode)).2 adds)
            .success).2.disk }).2.mem.map =
        sortByCreated (addSeq (FileStorage.init (fileStart mode)).2 adds).mem.map := by
      rw [hload]
      exact hfold
    refine ⟨?_, ?_, hlen⟩
    · rw [hmap3, sortByCreated_idem]
    · rw [hmap3]
      exact List.perm_insertionSort todoLe _
  · have hload := fileInit_missing mode
      (FileStorage.close (addSeq (FileStorage.init (fileStart mode)).2 adds) .success).2.disk htgt
    have hmap3 : (FileStorage.init
        { mem := FileStorage.newMem mode,
          disk := (FileStorage.close (addSeq (FileStorage.init (fileStart mode)).2 adds)
            .success).2.disk }).2.mem.map = [] := by
      rw [hload]
    refine ⟨?_, ?_, hlen⟩
    · rw [hmap3, hmapnil]
    · rw [hmap3, hmapnil]

/-- Witness for C8: two records added in onClose mode round-trip through
close and re-init to the same two records. -/
theorem C8_roundtrip_witness :
    (addsOk (FileStorage.init (fileStart Mode.onClose)).2
        [({ title := some ['b'], description := none, done := false }, ['j'], ['2']),
         ({ title := some ['a'], description := some ['d'], done := true }, ['i'], ['1'])] = true) ∧
      (addSeq (FileStorage.init (fileStart Mode.onClose)).2
        [({ title := some ['b'], description := none, done := false }, ['j'], ['2']),
         ({ title := some ['a'], description := some ['d'], done := true }, ['i'], ['1'])]).mem.map.length = 2 :=
  ⟨by decide,
    (C8_roundtrip Mode.onClose
      [({ title := some ['b'], description := none, done := false }, ['j'], ['2']),
       ({ title := some ['a'], description := some ['d'], done := true }, ['i'], ['1'])]
      (by decide)).2.2⟩

end TodoApp
